import Mathlib

set_option maxHeartbeats 1000000

/-!
Verification of the model-loading subsystem of `flopy/modflow/mf.py`
(class `Modflow`): the static `Modflow.load` name-file driven loader, the
dimension accessors, the free-format flag getter and setter, and the
BAS6 free-format peek.  Component loaders (the `item.package.load` calls)
are external collaborators; they are modelled by an abstract `Loader`
parameter giving, per unit number, whether the call fails (and with which
message) and which unit numbers the component claims post hoc (appends to
`ml.pop_key_list`).  File handles are modelled as a list of lines plus a
cursor position.
-/

/-- Decidable equality for `Except`, used to evaluate load results on
concrete inputs. -/
instance {ε α : Type} [DecidableEq ε] [DecidableEq α] : DecidableEq (Except ε α) :=
  fun x y =>
    match x, y with
    | .error a, .error b =>
      if h : a = b then .isTrue (by rw [h])
      else .isFalse (fun hh => h (by cases hh; rfl))
    | .ok a, .ok b =>
      if h : a = b then .isTrue (by rw [h])
      else .isFalse (fun hh => h (by cases hh; rfl))
    | .error _, .ok _ => .isFalse (fun hh => Except.noConfusion hh)
    | .ok _, .error _ => .isFalse (fun hh => Except.noConfusion hh)

namespace FlopyMf

/-- Whether `pat` is an initial segment of `l`. -/
def startsList : List Char → List Char → Bool
  | [], _ => true
  | _ :: _, [] => false
  | c :: cs, d :: ds => c == d && startsList cs ds

/-- Whether `pat` occurs as a contiguous segment of `l`. -/
def containsSubList (pat : List Char) : List Char → Bool
  | [] => startsList pat []
  | c :: cs => startsList pat (c :: cs) || containsSubList pat cs

/-- Python substring test `sub in s`. -/
def containsSub (s sub : String) : Bool := containsSubList sub.data s.data

/-- Python `s.startswith(pat)`. -/
def startsWith (s pat : String) : Bool := startsList pat.data s.data

/-- Python `s.upper()`. -/
def toUpperS (s : String) : String := String.mk (s.data.map Char.toUpper)

/-- Python `s.lower()`. -/
def toLowerS (s : String) : String := String.mk (s.data.map Char.toLower)

/-- `os.path.basename` for forward-slash paths: the segment after the last
slash (empty when the path ends in a slash). -/
def basename (p : String) : String :=
  String.mk (p.data.foldl (fun acc c => if c == '/' then [] else acc ++ [c]) [])

/-- An open text file handle: the lines of the file and the cursor position,
as used by `tell`, `readline` and `seek` on `bas.filehandle`. -/
structure FileStream where
  lines : List String
  pos : Nat
deriving Repr, DecidableEq

/-- `filehandle.readline()`: at end of file Python returns the empty string
and leaves the position unchanged. -/
def readline (fs : FileStream) : String × FileStream :=
  if fs.pos < fs.lines.length then
    (fs.lines.getD fs.pos "", { fs with pos := fs.pos + 1 })
  else ("", fs)

/-- The `line = f.readline(); while line.startswith("#"): line = f.readline()`
loop of `Modflow.load` (mf.py lines 540-542), on the suffix of lines from the
current position: returns the first line that does not start with `#`
(the empty string at end of file) and the number of lines consumed. -/
def firstNonCommentAux : List String → String × Nat
  | [] => ("", 0)
  | l :: ls =>
    if startsWith l "#" then
      let r := firstNonCommentAux ls
      (r.1, r.2 + 1)
    else (l, 1)

/-- Read lines from the stream until one does not start with `#`. -/
def skipComments (fs : FileStream) : String × FileStream :=
  let r := firstNonCommentAux (fs.lines.drop fs.pos)
  (r.1, { fs with pos := fs.pos + r.2 })

/-- One external file binding of the model: an element of the zipped
`ml.external_units` / `ml.external_fnames` / `ml.external_binflag` /
`ml.external_output` parallel lists. -/
structure ExtBinding where
  unit : Nat
  fname : String
  binflag : Bool
  output : Bool
deriving Repr, DecidableEq

/-- The state of the `Modflow` model object that the load subsystem reads and
writes.  `packages` records the filetype tags of attached packages in load
order (package attachment is done by the component loaders through
`ml.add_package`); `glo` and `lst` model the unit-number/file bookkeeping of
the GLOBAL and LIST pseudo packages. -/
structure MlState where
  version : String
  structured : Bool
  free_format_input : Bool
  array_free_format : Bool
  load_fail : Bool
  packages : List String
  externals : List ExtBinding
  pop_key_list : List Nat
  glo : Option (Nat × String)
  lst : Nat × String
deriving Repr, DecidableEq

/-- `Modflow.__init__` as invoked by `Modflow.load` (no `structured` keyword,
so `structured=True`; `BaseModel.__init__` sets `free_format_input = True`,
empty external lists and empty `pop_key_list`; mf.py line 124 sets
`array_free_format = True`, line 132 sets `load_fail = False`; a `glo`
package exists only for version `mf2k`, the `lst` package has unit 2). -/
def initModel (version0 : String) : MlState :=
  { version := version0
    structured := true
    free_format_input := true
    array_free_format := true
    load_fail := false
    packages := []
    externals := []
    pop_key_list := []
    glo := if version0 == "mf2k" then some (1, "") else none
    lst := (2, "") }

/-- One parsed name-file entry (the values of `ext_unit_dict`): filetype tag,
file path, whether a package loader is registered for the tag
(`item.package is not None`), and the open file handle. -/
structure NamEntry where
  filetype : String
  filename : String
  hasPackage : Bool
  stream : FileStream
deriving Repr, DecidableEq

/-- The ordered unit-number dictionary produced by `mfreadnam.parsenamefile`
(Python dicts preserve insertion order). -/
abbrev UnitDict := List (Nat × NamEntry)

/-- Behaviour of the external component loader for one unit number:
`fails = some msg` means `item.package.load` raises with message `msg`;
on success `claims` is the list of unit numbers the component appends to
`ml.pop_key_list` (units it allocates and consumes post hoc). -/
structure LoaderOutcome where
  fails : Option String
  claims : List Nat
deriving Repr, DecidableEq

/-- Loader behaviour, per unit number. -/
abbrev Loader := Nat → LoaderOutcome

/-- The BAS6 free-format peek of `Modflow.load` (mf.py lines 538-545):
`start = f.tell()`, read lines past `#` comments, set
`ml.free_format_input = True` when `"FREE" in line.upper()`, then
`f.seek(start)`. -/
def peekBas (ml : MlState) (fs : FileStream) : MlState × FileStream :=
  let start := fs.pos
  let r := skipComments fs
  let ml2 := if containsSub (toUpperS r.1) "FREE" then
      { ml with free_format_input := true }
    else ml
  (ml2, { r.2 with pos := start })

/-- First entry of the dictionary with the given filetype (the
`for key, item in ext_unit_dict.items(): ... break` search pattern). -/
def findFiletype (ft : String) (dict : UnitDict) : Option (Nat × NamEntry) :=
  dict.find? (fun kv => kv.2.filetype == ft)

/-- The discretization search of mf.py lines 551-561: the first entry whose
filetype is `DIS` or `DISU`. -/
def findDis (dict : UnitDict) : Option (Nat × NamEntry) :=
  dict.find? (fun kv => kv.2.filetype == "DIS" || kv.2.filetype == "DISU")

/-- Last entry of the dictionary with the given filetype (the Python loops at
mf.py lines 494-497 and 507-510 overwrite `unitnumber` on every match, so the
last match wins). -/
def lastFiletype (ft : String) (dict : UnitDict) : Option (Nat × NamEntry) :=
  dict.foldl (fun acc kv => if kv.2.filetype == ft then some kv else acc) none

/-- The version-reclassification rules of mf.py lines 516-525, for one
entry. -/
def reclassStep (vs : String × Bool) (e : NamEntry) : String × Bool :=
  if e.filetype == "NWT" || e.filetype == "UPW" then ("mfnwt", vs.2)
  else if e.filetype == "GLO" then ("mf2k", vs.2)
  else if e.filetype == "SMS" then ("mfusg", vs.2)
  else if e.filetype == "DISU" then ("mfusg", false)
  else vs

/-- The version-reclassification pre-pass of mf.py lines 515-525: fold the
rules over the whole dictionary in order, starting from the `version`
argument and the current `structured` flag. -/
def reclassify : String × Bool → UnitDict → String × Bool
  | vs, [] => vs
  | vs, kv :: rest => reclassify (reclassStep vs kv.2) rest

/-- The version tag a filetype induces, if any. -/
def tagVersion (ft : String) : Option String :=
  if ft == "NWT" || ft == "UPW" then some "mfnwt"
  else if ft == "GLO" then some "mf2k"
  else if ft == "SMS" then some "mfusg"
  else if ft == "DISU" then some "mfusg"
  else none

/-- One recorded invocation of a component loader: the unit number and
filetype of the entry, and the model version and structured flag in effect
at the moment `item.package.load` is called. -/
structure Ev where
  unit : Nat
  filetype : String
  version : String
  structured : Bool
deriving Repr, DecidableEq

/-- Build the invocation record for an entry from the current model state. -/
def mkEv (key : Nat) (item : NamEntry) (ml : MlState) : Ev :=
  { unit := key, filetype := item.filetype
    version := ml.version, structured := ml.structured }

/-- Effect on the model of a successful `item.package.load` call: the package
registers itself under its filetype tag and appends its post-hoc claimed
units to `ml.pop_key_list`. -/
def attachPackage (ml : MlState) (item : NamEntry) (out : LoaderOutcome) : MlState :=
  { ml with packages := ml.packages ++ [item.filetype]
            pop_key_list := ml.pop_key_list ++ out.claims }

/-- `ext_unit_dict.pop(key)` (total: removing an absent key is the identity;
in the source the `KeyError` of the cleanup pass is caught and ignored). -/
def eraseKey (dict : UnitDict) (k : Nat) : UnitDict :=
  dict.filter (fun kv => kv.1 != k)

/-- The errors `Modflow.load` can raise.  `missingDis` is the
`AttributeError` from dereferencing `disnamdata = None` when no DIS or DISU
entry exists (spec: `MissingDiscretizationError`); `disLoadFailed` is the
wrapped `Could not read discretization package: <basename>. Stopping...`
exception of the forgiving branch; `basLoadFailed` is the wrapped
`Could not read basic package: <basename>. Stopping...` exception (raised in
both modes); `loaderErr` is a loader exception propagated unchanged (strict
mode); `loadOnlyNotFound` is the `load_only entries were not found`
exception (spec: `UnsatisfiedLoadRequestError`), carrying the missing
tags. -/
inductive LoadErr where
  | missingDis
  | disLoadFailed (fileBase msg : String)
  | basLoadFailed (fileBase msg : String)
  | loaderErr (msg : String)
  | loadOnlyNotFound (tags : List String)
deriving Repr, DecidableEq

/-- Whether an error names the given file (directly in a wrapped structural
error, or as a substring of a raw loader message). -/
def errNames (e : LoadErr) (s : String) : Bool :=
  match e with
  | .disLoadFailed f m => f == s || containsSub m s
  | .basLoadFailed f m => f == s || containsSub m s
  | .loaderErr m => containsSub m s
  | _ => false

/-- The in-place normalization of the `load_only` list (mf.py lines 620-624):
each tag is uppercased, except that tags whose uppercase form is `DIS` or
`BAS6` are left as written (the `load_only[i] = filetype` assignment sits
inside the `if filetype != 'DIS' and filetype != 'BAS6'` branch). -/
def normLoadOnly (l : List String) : List String :=
  l.map (fun ft =>
    let u := toUpperS ft
    if u != "DIS" && u != "BAS6" then u else ft)

/-- The `not_found` list of mf.py lines 620-631: uppercased `load_only` tags
other than `DIS` and `BAS6` that match no entry of the (already dis/bas
popped) dictionary. -/
def notFoundTags (l : List String) (dict : UnitDict) : List String :=
  l.filterMap (fun ft =>
    let u := toUpperS ft
    if u != "DIS" && u != "BAS6" then
      if dict.any (fun kv => kv.2.filetype == u) then none else some u
    else none)

/-- Running bookkeeping of the dispatch loop: the model plus the local
`files_succesfully_loaded` and `files_not_loaded` lists. -/
structure DispatchSt where
  ml : MlState
  succeeded : List String
  notLoaded : List String
deriving Repr, DecidableEq

/-- Result of one iteration of the dispatch loop: either an uncaught loader
exception (strict mode) or the updated state plus the loader invocations
performed. -/
inductive StepRes where
  | halt (e : LoadErr) (ev : Ev)
  | next (st : DispatchSt) (evs : List Ev)
deriving Repr, DecidableEq

/-- One iteration of the `for key, item in ext_unit_dict.items()` dispatch
loop (mf.py lines 643-702).  Entries with a registered package whose filetype
is in `load_only` and is not `DIS` are dispatched to their loader (strict
mode propagates a failure, forgiving mode records it in `files_not_loaded`
and sets `ml.load_fail`); other registered entries are recorded as not
loaded; unregistered entries without `data` in the tag are recorded as not
loaded; unregistered `data` entries become external bindings unless their
unit is already in `ml.pop_key_list` or `ml.external_units`. -/
def dispatchStep (forgive : Bool) (L : Loader) (lo : List String)
    (st : DispatchSt) (key : Nat) (item : NamEntry) : StepRes :=
  if item.hasPackage then
    if lo.contains item.filetype && item.filetype != "DIS" then
      let ev := mkEv key item st.ml
      match (L key).fails with
      | none =>
        .next { st with ml := attachPackage st.ml item (L key)
                        succeeded := st.succeeded ++ [item.filename] } [ev]
      | some msg =>
        if forgive then
          .next { st with ml := { st.ml with load_fail := true }
                          notLoaded := st.notLoaded ++ [item.filename] } [ev]
        else .halt (.loaderErr msg) ev
    else .next { st with notLoaded := st.notLoaded ++ [item.filename] } []
  else if !(containsSub (toLowerS item.filetype) "data") then
    .next { st with notLoaded := st.notLoaded ++ [item.filename] } []
  else
    .next { st with ml :=
      if st.ml.pop_key_list.contains key then st.ml
      else if (st.ml.externals.map (fun b => b.unit)).contains key then st.ml
      else { st.ml with externals := st.ml.externals ++
        [{ unit := key, fname := item.filename
           binflag := containsSub (toLowerS item.filetype) "binary"
           output := false }] } } []

/-- The dispatch loop over the remaining dictionary entries, threading the
state and the trace of loader invocations. -/
def dispatch (forgive : Bool) (L : Loader) (lo : List String) :
    DispatchSt → List Ev → UnitDict → (Except LoadErr DispatchSt) × List Ev
  | st, tr, [] => (.ok st, tr)
  | st, tr, kv :: rest =>
    match dispatchStep forgive L lo st kv.1 kv.2 with
    | .halt e ev => (.error e, tr ++ [ev])
    | .next st2 evs => dispatch forgive L lo st2 (tr ++ evs) rest

/-- Modelled from the spec: `BaseModel.remove_external(unit=key)` (defined in
`mbase.py`, outside the packaged sources) removes every external binding
carrying the given unit number from the parallel external lists; removing a
unit that is absent from the bindings is a no-op, not an error. -/
def remove_external (ml : MlState) (key : Nat) : MlState :=
  { ml with externals := ml.externals.filter (fun b => b.unit != key) }

/-- The cleanup pass of mf.py lines 706-713: for every key in
`ml.pop_key_list`, remove the external binding and pop the key from the
dictionary; the `KeyError` of `ext_unit_dict.pop` on an absent key is caught
and only logged, so the pass is total. -/
def cleanupFold : List Nat → MlState × UnitDict → MlState × UnitDict
  | [], st => st
  | k :: ks, (ml, d) => cleanupFold ks (remove_external ml k, eraseKey d k)

/-- The cleanup pass applied to the current `ml.pop_key_list`. -/
def cleanupPass (ml : MlState) (dict : UnitDict) : MlState × UnitDict :=
  cleanupFold ml.pop_key_list (ml, dict)

/-- The value returned by `Modflow.load`, together with the local success and
failure lists and the dictionary as left after the cleanup pass. -/
structure LoadResult where
  ml : MlState
  succeeded : List String
  notLoaded : List String
  remaining : UnitDict
deriving Repr, DecidableEq

/-- Model state after the GLOBAL and LIST unit-number resets
(mf.py lines 491-513). -/
def mlAfterUnits (dict : UnitDict) (v0 : String) : MlState :=
  let ml0 := initModel v0
  let ml1 :=
    if v0 == "mf2k" then
      match lastFiletype "GLOBAL" dict with
      | some kv => { ml0 with glo := some (kv.1, basename kv.2.filename) }
      | none => { ml0 with glo := some (0, "") }
    else ml0
  match lastFiletype "LIST" dict with
  | some kv => { ml1 with lst := (kv.1, basename kv.2.filename) }
  | none => ml1

/-- Model state after the version-reclassification pre-pass, `set_version`,
and the BAS6 free-format peek (mf.py lines 515-548); the peek leaves the
stream exactly as found (`peekBas_stream`), so the dictionary is
unchanged. -/
def mlPre (dict : UnitDict) (v0 : String) : MlState :=
  let ml2 := mlAfterUnits dict v0
  let vs := reclassify (v0, ml2.structured) dict
  let ml3 := { ml2 with version := vs.1, structured := vs.2 }
  match findFiletype "BAS6" dict with
  | some kv => (peekBas ml3 kv.2.stream).1
  | none => ml3

/-- The tail of `Modflow.load` after the discretization and BAS6 loads: the
`load_only` resolution and check (mf.py lines 613-635), the dispatch loop,
and the cleanup pass.  The `ml.mfpar.set_pval/set_zone/set_mult` calls
(line 638-640) touch only the external `ModflowPar` collaborator and are
not part of the modelled state. -/
def finishDispatch (dict : UnitDict) :
    Except LoadErr DispatchSt × List Ev → (Except LoadErr LoadResult) × List Ev
  | (.error e, tr2) => (.error e, tr2)
  | (.ok st, tr2) =>
    let cf := cleanupPass st.ml dict
    (.ok { ml := cf.1, succeeded := st.succeeded
           notLoaded := st.notLoaded, remaining := cf.2 }, tr2)

/-- The tail phase continued: resolve the allow-list, fail on missing tags,
else dispatch and clean up. -/
def loadRest (ml : MlState) (succ : List String) (dict : UnitDict)
    (tr : List Ev) (L : Loader) (load_only : Option (List String))
    (forgive : Bool) : (Except LoadErr LoadResult) × List Ev :=
  let lo := match load_only with
    | none => dict.map (fun kv => kv.2.filetype)
    | some l => normLoadOnly l
  let nf := match load_only with
    | none => []
    | some l => notFoundTags l dict
  if nf.isEmpty then
    finishDispatch dict
      (dispatch forgive L lo { ml := ml, succeeded := succ, notLoaded := [] } tr dict)
  else (.error (.loadOnlyNotFound nf), tr)

/-- `Modflow.load` (mf.py lines 427-735), from the parsed name-file
dictionary on: GLOBAL/LIST unit resets, version reclassification pre-pass,
BAS6 peek, discretization load (an absent entry raises through the `None`
dereference in both modes; a loader failure raises the wrapped message in
forgiving mode and propagates the raw loader error in strict mode), BAS6
load (a failure raises the wrapped message in both modes), `load_only`
check, dispatch loop, cleanup pass.  Also returns the trace of component
loader invocations in order. -/
def load (dict : UnitDict) (L : Loader) (load_only : Option (List String))
    (forgive : Bool) (v0 : String) : (Except LoadErr LoadResult) × List Ev :=
  let ml4 := mlPre dict v0
  match findDis dict with
  | none => (.error .missingDis, [])
  | some (dk, de) =>
    let ev := mkEv dk de ml4
    match (L dk).fails with
    | some msg =>
      if forgive then (.error (.disLoadFailed (basename de.filename) msg), [ev])
      else (.error (.loaderErr msg), [ev])
    | none =>
      let ml5 := attachPackage ml4 de (L dk)
      let dict1 := eraseKey dict dk
      match findFiletype "BAS6" dict with
      | some (bk, be) =>
        let ev2 := mkEv bk be ml5
        match (L bk).fails with
        | some msg =>
          (.error (.basLoadFailed (basename be.filename) msg), [ev, ev2])
        | none =>
          loadRest (attachPackage ml5 be (L bk)) [de.filename, be.filename]
            (eraseKey dict1 bk) [ev, ev2] L load_only forgive
      | none => loadRest ml5 [de.filename] dict1 [ev] L load_only forgive

/-- The structured discretization (DIS) package fields read by the
dimension accessors. -/
structure DisPkg where
  nrow : Nat
  ncol : Nat
  nlay : Nat
  nper : Nat
deriving Repr, DecidableEq

/-- The unstructured discretization (DISU) package fields read by the
combined dimension accessor. -/
structure DisuPkg where
  nodelay : List Nat
  nlay : Nat
  nper : Nat
deriving Repr, DecidableEq

/-- The BAS6 package field read and written by the free-format accessors. -/
structure BasPkg where
  ifrefm : Bool
deriving Repr, DecidableEq

/-- Modelled from the spec: `BaseModel.get_package` (defined in `mbase.py`,
outside the packaged sources) looks a package up by its type tag, and the
spec data model makes `components` a mapping keyed by type tag, so `DIS`,
`DISU` and `BAS6` are three distinct slots; the `self.dis` attribute
resolves through `__getattr__` to `get_package("DIS")`.  This is the
accessor-level model state: at most one package per tag, plus the
model-level `array_free_format` flag (mf.py line 124). -/
structure ModflowM where
  disPkg : Option DisPkg
  disuPkg : Option DisuPkg
  basPkg : Option BasPkg
  array_free_format : Bool
deriving Repr, DecidableEq

/-- `Modflow.nlay` (mf.py lines 219-224): `self.dis.nlay` when `self.dis`
is truthy, else 0. -/
def ModflowM.nlay (m : ModflowM) : Nat :=
  match m.disPkg with
  | some d => d.nlay
  | none => 0

/-- `Modflow.nrow` (mf.py lines 226-231). -/
def ModflowM.nrow (m : ModflowM) : Nat :=
  match m.disPkg with
  | some d => d.nrow
  | none => 0

/-- `Modflow.ncol` (mf.py lines 233-238). -/
def ModflowM.ncol (m : ModflowM) : Nat :=
  match m.disPkg with
  | some d => d.ncol
  | none => 0

/-- `Modflow.nper` (mf.py lines 240-245). -/
def ModflowM.nper (m : ModflowM) : Nat :=
  match m.disPkg with
  | some d => d.nper
  | none => 0

/-- A component of the heterogeneous tuple returned by
`Modflow.nrow_ncol_nlay_nper`: a number, Python `None`, or the
`nodelay.array[:]` copy. -/
inductive DimVal where
  | num (n : Nat)
  | pynone
  | arr (l : List Nat)
deriving Repr, DecidableEq

/-- `Modflow.nrow_ncol_nlay_nper` (mf.py lines 247-258): the structured DIS
values when `get_package("DIS")` finds one, else the
`(None, nodelay.array[:], nlay, nper)` tuple for DISU, else
`(0, 0, 0, 0)`. -/
def ModflowM.nrow_ncol_nlay_nper (m : ModflowM) :
    DimVal × DimVal × DimVal × DimVal :=
  match m.disPkg with
  | some d => (.num d.nrow, .num d.ncol, .num d.nlay, .num d.nper)
  | none =>
    match m.disuPkg with
    | some du => (.pynone, .arr du.nodelay, .num du.nlay, .num du.nper)
    | none => (.num 0, .num 0, .num 0, .num 0)

/-- `Modflow.get_nrow_ncol_nlay_nper` (mf.py lines 260-261). -/
def ModflowM.get_nrow_ncol_nlay_nper (m : ModflowM) :
    DimVal × DimVal × DimVal × DimVal :=
  m.nrow_ncol_nlay_nper

/-- `Modflow.get_ifrefm` (mf.py lines 263-268): the BAS6 flag when a BAS6
package is attached, else `False`. -/
def ModflowM.get_ifrefm (m : ModflowM) : Bool :=
  match m.basPkg with
  | some bas => bas.ifrefm
  | none => false

/-- The argument of `set_ifrefm`: a Python bool or any non-boolean value. -/
inductive PyArg where
  | pybool (b : Bool)
  | nonbool
deriving Repr, DecidableEq

/-- `Modflow.set_ifrefm` (mf.py lines 270-279): a non-boolean argument is
rejected with a printed message and `False` (no state change); a boolean
argument always sets `array_free_format`, then mirrors into the BAS6
package when one is attached (returning Python `None`, modelled as
`none`), else returns `False` (`some false`). -/
def ModflowM.set_ifrefm (m : ModflowM) (value : PyArg) : ModflowM × Option Bool :=
  match value with
  | .nonbool => (m, some false)
  | .pybool b =>
    let m1 := { m with array_free_format := b }
    match m1.basPkg with
    | some _ => ({ m1 with basPkg := some { ifrefm := b } }, none)
    | none => (m1, some false)

/-- Claim C8 as stated: whenever a discretization component is present, the
per-dimension accessors return the values of that component (here stated
for the two discretization kinds and the `nlay`/`nper` accessors). -/
def c8DimClaim : Prop :=
  (∀ (m : ModflowM) (d : DisPkg), m.disPkg = some d →
    m.nlay = d.nlay ∧ m.nrow = d.nrow ∧ m.ncol = d.ncol ∧ m.nper = d.nper) ∧
  (∀ (m : ModflowM) (du : DisuPkg), m.disuPkg = some du →
    m.nlay = du.nlay ∧ m.nper = du.nper)

/-- An empty open file handle, for concrete test entries. -/
def emptyFS : FileStream := { lines := [], pos := 0 }

/-- Concrete DIS entry at unit 10 (spec scenarios A and B). -/
def entDis : NamEntry := { filetype := "DIS", filename := "a.dis", hasPackage := true, stream := emptyFS }

/-- Concrete BAS6 entry at unit 11 (spec scenario A). -/
def entBas : NamEntry := { filetype := "BAS6", filename := "a.bas", hasPackage := true, stream := emptyFS }

/-- Concrete WEL entry at unit 12 (spec scenario A). -/
def entWel : NamEntry := { filetype := "WEL", filename := "a.wel", hasPackage := true, stream := emptyFS }

/-- Concrete binary data entry at unit 50 (spec scenario B). -/
def entDataBin : NamEntry := { filetype := "DATA(BINARY)", filename := "out.bin", hasPackage := false, stream := emptyFS }

/-- Concrete plain data entry at unit 50. -/
def entData : NamEntry := { filetype := "DATA", filename := "out.bin", hasPackage := false, stream := emptyFS }

/-- Concrete NWT entry at unit 20. -/
def entNwt : NamEntry := { filetype := "NWT", filename := "a.nwt", hasPackage := true, stream := emptyFS }

/-- The scenario A manifest. -/
def dictA : UnitDict := [(10, entDis), (11, entBas), (12, entWel)]

/-- The scenario B manifest. -/
def dictB : UnitDict := [(10, entDis), (50, entDataBin)]

/-- A loader on which every component load succeeds and claims nothing. -/
def okLoader : Loader := fun _ => { fails := none, claims := [] }

/-- The scenario A loader: the WEL load (unit 12) raises, everything else
succeeds. -/
def loaderA : Loader := fun k =>
  if k == 12 then { fails := some "WEL boom", claims := [] }
  else { fails := none, claims := [] }

/-- A loader on which every component load raises with a message that does
not mention any file name. -/
def boomLoader : Loader := fun _ => { fails := some "boom", claims := [] }

/-- A loader on which the DIS load succeeds and claims unit 50 post hoc. -/
def loaderClaim50 : Loader := fun k =>
  if k == 10 then { fails := none, claims := [50] }
  else { fails := none, claims := [] }

/-- A loader on which only the BAS6 load (unit 11) raises. -/
def loaderBasFail : Loader := fun k =>
  if k == 11 then { fails := some "bas boom", claims := [] }
  else { fails := none, claims := [] }

/-- The manifest with a DIS entry and a plain data entry at unit 50. -/
def dict7 : UnitDict := [(10, entDis), (50, entData)]

/-- The model produced by loading `dict7` with `loaderClaim50`. -/
def mlC7 : MlState :=
  { version := "mf2005", structured := true, free_format_input := true
    array_free_format := true, load_fail := false, packages := ["DIS"]
    externals := [], pop_key_list := [50], glo := none, lst := (2, "") }

/-- The load result for `dict7` with `loaderClaim50`: unit 50 was claimed
post hoc, so it got no binding and was popped from the dictionary. -/
def resC7 : LoadResult :=
  { ml := mlC7, succeeded := ["a.dis"], notLoaded := [], remaining := [] }

/-- The trace for the `dict7` load: only the DIS loader ran. -/
def trC7 : List Ev :=
  [{ unit := 10, filetype := "DIS", version := "mf2005", structured := true }]

/-- The model produced by loading scenario B (`dictB`): the binary data
entry at unit 50 became one external binding. -/
def mlB : MlState :=
  { version := "mf2005", structured := true, free_format_input := true
    array_free_format := true, load_fail := false, packages := ["DIS"]
    externals := [{ unit := 50, fname := "out.bin", binflag := true, output := false }]
    pop_key_list := [], glo := none, lst := (2, "") }

/-- The load result for scenario B. -/
def resB : LoadResult :=
  { ml := mlB, succeeded := ["a.dis"], notLoaded := []
    remaining := [(50, entDataBin)] }

/-- The trace for the scenario B load: only the DIS loader ran. -/
def trB : List Ev :=
  [{ unit := 10, filetype := "DIS", version := "mf2005", structured := true }]

/-- A concrete structured discretization package. -/
def dEx : DisPkg := { nrow := 4, ncol := 5, nlay := 2, nper := 3 }

/-- A concrete unstructured discretization package. -/
def duEx : DisuPkg := { nodelay := [5], nlay := 2, nper := 3 }

/-- A model carrying only a DIS component. -/
def mDis : ModflowM :=
  { disPkg := some dEx, disuPkg := none, basPkg := none, array_free_format := true }

/-- A model carrying only a DISU component. -/
def mDisu : ModflowM :=
  { disPkg := none, disuPkg := some duEx, basPkg := none, array_free_format := true }

/-- A model carrying no discretization and no BAS6 component. -/
def mEmpty : ModflowM :=
  { disPkg := none, disuPkg := none, basPkg := none, array_free_format := true }

/-- A model carrying a BAS6 component with the free-format flag off. -/
def mBas : ModflowM :=
  { disPkg := none, disuPkg := none, basPkg := some { ifrefm := false },
    array_free_format := false }

/-- Frame conditions relating the dispatch state before and after one
iteration of the dispatch loop: the bookkeeping lists only grow, the
load-failed flag is never cleared, new pop keys come only from the claims
of the loader of the processed entry, every recorded invocation carries
the unit number of the processed entry, and external-binding counts for
other unit numbers are untouched. -/
def StepFrame (L : Loader) (key : Nat) (st st2 : DispatchSt)
    (evs : List Ev) : Prop :=
  (∀ x ∈ st.ml.packages, x ∈ st2.ml.packages) ∧
  (∀ x ∈ st.notLoaded, x ∈ st2.notLoaded) ∧
  (st.ml.load_fail = true → st2.ml.load_fail = true) ∧
  (∀ b ∈ st.ml.externals, b ∈ st2.ml.externals) ∧
  (∀ j, st2.ml.pop_key_list.contains j = true →
    st.ml.pop_key_list.contains j = true ∨
      ((L key).claims).contains j = true) ∧
  (∀ ev ∈ evs, ev.unit = key) ∧
  (∀ k2, ¬ k2 = key →
    st2.ml.externals.countP (fun b => b.unit == k2) =
      st.ml.externals.countP (fun b => b.unit == k2))

/-! ### Theorems -/

/-- The peek hands the stream back exactly as it found it: the final
`seek(start)` undoes the reads. -/
theorem peekBas_stream (ml : MlState) (fs : FileStream) :
    (peekBas ml fs).2 = fs := rfl

/-- C9: the BAS6 free-format peek restores the stream position recorded
before the reads (so a later full parse of the stream is unaffected), and
changes no load state other than possibly setting the free-format flag of
the model to true. -/
theorem c9_peek_frame (ml : MlState) (fs : FileStream) :
    (peekBas ml fs).2.pos = fs.pos ∧ (peekBas ml fs).2.lines = fs.lines ∧
    ((peekBas ml fs).1 = ml ∨
      (peekBas ml fs).1 = { ml with free_format_input := true }) := by
  refine ⟨by rw [peekBas_stream], by rw [peekBas_stream], ?_⟩
  unfold peekBas
  dsimp only
  split
  · right; rfl
  · left; rfl

/-- C10: `get_ifrefm` returns false whenever no BAS6 package is attached,
also after any `set_ifrefm` call; `set_ifrefm` on a boolean always updates
the model-level `array_free_format` field, mirrors the flag into the BAS6
package when one is attached (returning Python None), and returns False
when none is attached; a non-boolean argument changes no state and returns
False without raising. -/
theorem c10_ifrefm :
    (∀ m : ModflowM, m.basPkg = none → m.get_ifrefm = false) ∧
    (∀ (m : ModflowM) (v : PyArg), m.basPkg = none →
      (m.set_ifrefm v).1.basPkg = none ∧ (m.set_ifrefm v).1.get_ifrefm = false) ∧
    (∀ (m : ModflowM) (b : Bool), (m.set_ifrefm (.pybool b)).1.array_free_format = b) ∧
    (∀ (m : ModflowM) (b : Bool), m.basPkg = none →
      m.set_ifrefm (.pybool b) = ({ m with array_free_format := b }, some false)) ∧
    (∀ (m : ModflowM) (b : Bool) (bas : BasPkg), m.basPkg = some bas →
      m.set_ifrefm (.pybool b) =
        ({ m with array_free_format := b, basPkg := some { ifrefm := b } }, none)) ∧
    (∀ m : ModflowM, m.set_ifrefm .nonbool = (m, some false)) := by
  refine ⟨?_, ?_, ?_, ?_, ?_, ?_⟩
  · intro m h; simp [ModflowM.get_ifrefm, h]
  · intro m v h
    cases v with
    | nonbool => exact ⟨h, by simp [ModflowM.set_ifrefm, ModflowM.get_ifrefm, h]⟩
    | pybool b => simp [ModflowM.set_ifrefm, ModflowM.get_ifrefm, h]
  · intro m b; simp [ModflowM.set_ifrefm]; split <;> rfl
  · intro m b h; simp [ModflowM.set_ifrefm, h]
  · intro m b bas h; simp [ModflowM.set_ifrefm, h]
  · intro m; rfl

/-- Witness for C10 at concrete models: a model without BAS6 and a model
with BAS6 with ifrefm set. -/
theorem c10_ifrefm_witness :
    (mEmpty.get_ifrefm = false) ∧
    (mEmpty.set_ifrefm (.pybool false) =
      ({ mEmpty with array_free_format := false }, some false)) ∧
    (mBas.set_ifrefm (.pybool true) =
      ({ mBas with array_free_format := true, basPkg := some { ifrefm := true } }, none)) := by
  refine ⟨c10_ifrefm.1 _ rfl, ?_, ?_⟩
  · exact c10_ifrefm.2.2.2.1 _ false rfl
  · exact c10_ifrefm.2.2.2.2.1 _ true { ifrefm := false } rfl

/-- C8 counterexample: in a model carrying only an unstructured (DISU)
discretization component, a discretization component is present but the
`nlay` accessor returns 0, not the nlay of the component — `self.dis`
resolves only the `DIS` tag.  So the claim as stated is false. -/
theorem c8_counterexample : ¬ c8DimClaim := by
  intro h
  have h2 := h.2 mDisu duEx rfl
  exact absurd h2.1 (by decide)

/-- C8 (amended): the dimension accessors never raise; the per-dimension
accessors delegate to the structured DIS component only and return 0 when
no DIS component is attached, even when a DISU component is present; the
combined query returns the DIS values when DIS is present, the
`(None, nodelay, nlay, nper)` tuple when only DISU is present, and the
neutral `(0, 0, 0, 0)` tuple when no discretization component is present;
`get_nrow_ncol_nlay_nper` returns the same tuple as the property. -/
theorem c8_dim_accessors :
    (∀ (m : ModflowM) (d : DisPkg), m.disPkg = some d →
      m.nlay = d.nlay ∧ m.nrow = d.nrow ∧ m.ncol = d.ncol ∧ m.nper = d.nper ∧
      m.nrow_ncol_nlay_nper = (.num d.nrow, .num d.ncol, .num d.nlay, .num d.nper)) ∧
    (∀ (m : ModflowM) (du : DisuPkg), m.disPkg = none → m.disuPkg = some du →
      m.nlay = 0 ∧ m.nrow = 0 ∧ m.ncol = 0 ∧ m.nper = 0 ∧
      m.nrow_ncol_nlay_nper = (.pynone, .arr du.nodelay, .num du.nlay, .num du.nper)) ∧
    (∀ m : ModflowM, m.disPkg = none → m.disuPkg = none →
      m.nlay = 0 ∧ m.nrow = 0 ∧ m.ncol = 0 ∧ m.nper = 0 ∧
      m.nrow_ncol_nlay_nper = (.num 0, .num 0, .num 0, .num 0)) ∧
    (∀ m : ModflowM, m.get_nrow_ncol_nlay_nper = m.nrow_ncol_nlay_nper) := by
  refine ⟨?_, ?_, ?_, fun m => rfl⟩
  · intro m d h
    simp [ModflowM.nlay, ModflowM.nrow, ModflowM.ncol, ModflowM.nper,
      ModflowM.nrow_ncol_nlay_nper, h]
  · intro m du h h2
    simp [ModflowM.nlay, ModflowM.nrow, ModflowM.ncol, ModflowM.nper,
      ModflowM.nrow_ncol_nlay_nper, h, h2]
  · intro m h h2
    simp [ModflowM.nlay, ModflowM.nrow, ModflowM.ncol, ModflowM.nper,
      ModflowM.nrow_ncol_nlay_nper, h, h2]

/-- Witness for C8 at concrete models covering the three cases. -/
theorem c8_dim_accessors_witness :
    (mDis.nlay = 2 ∧ mDis.nrow_ncol_nlay_nper = (.num 4, .num 5, .num 2, .num 3)) ∧
    (mDisu.nlay = 0 ∧ mDisu.nrow_ncol_nlay_nper = (.pynone, .arr [5], .num 2, .num 3)) ∧
    (mEmpty.nrow_ncol_nlay_nper = (.num 0, .num 0, .num 0, .num 0)) := by
  refine ⟨⟨?_, ?_⟩, ⟨?_, ?_⟩, ?_⟩
  · exact (c8_dim_accessors.1 mDis dEx rfl).1
  · exact (c8_dim_accessors.1 mDis dEx rfl).2.2.2.2
  · exact (c8_dim_accessors.2.1 mDisu duEx rfl rfl).1
  · exact (c8_dim_accessors.2.1 mDisu duEx rfl rfl).2.2.2.2
  · exact (c8_dim_accessors.2.2.1 mEmpty rfl rfl).2.2.2.2

/-- C3: when the manifest has no DIS and no DISU entry, `load` fails with
the missing-discretization error in both forgiving and strict mode (the
`disnamdata = None` dereference raises in either branch; the spec names
this `MissingDiscretizationError`). -/
theorem c3_missing_dis (dict : UnitDict) (L : Loader)
    (lo : Option (List String)) (fg : Bool) (v0 : String)
    (h : ∀ kv ∈ dict, kv.2.filetype ≠ "DIS" ∧ kv.2.filetype ≠ "DISU") :
    (load dict L lo fg v0).1 = .error .missingDis := by
  have hfind : findDis dict = none := by
    apply List.find?_eq_none.mpr
    intro kv hkv
    simp [(h kv hkv).1, (h kv hkv).2]
  simp [load, hfind]

/-- Witness for C3: a manifest holding only a BAS6 entry, in both modes. -/
theorem c3_missing_dis_witness :
    (load [(11, entBas)] okLoader none true "mf2005").1 = .error .missingDis ∧
    (load [(11, entBas)] okLoader none false "mf2005").1 = .error .missingDis :=
  ⟨c3_missing_dis _ _ _ _ _ (by decide), c3_missing_dis _ _ _ _ _ (by decide)⟩

/-- One reclassification step, version component. -/
theorem reclassStep_fst (vs : String × Bool) (e : NamEntry) :
    (reclassStep vs e).1 = (tagVersion e.filetype).getD vs.1 := by
  unfold reclassStep tagVersion
  by_cases h1 : (e.filetype == "NWT" || e.filetype == "UPW") = true <;>
    by_cases h2 : (e.filetype == "GLO") = true <;>
    by_cases h3 : (e.filetype == "SMS") = true <;>
    by_cases h4 : (e.filetype == "DISU") = true <;>
    simp_all

/-- One reclassification step, structured component: only a DISU entry
clears the flag. -/
theorem reclassStep_snd (vs : String × Bool) (e : NamEntry) :
    (reclassStep vs e).2 = (vs.2 && !(e.filetype == "DISU")) := by
  unfold reclassStep
  by_cases h1 : (e.filetype == "NWT" || e.filetype == "UPW") = true <;>
    by_cases h2 : (e.filetype == "GLO") = true <;>
    by_cases h3 : (e.filetype == "SMS") = true <;>
    by_cases h4 : (e.filetype == "DISU") = true <;>
    simp_all

/-- The reclassified version is the last version tag induced by any entry,
in manifest order, or the starting version when none occurs. -/
theorem reclassify_fst (dict : UnitDict) : ∀ (v0 : String) (s0 : Bool),
    (reclassify (v0, s0) dict).1 =
      (dict.filterMap (fun kv => tagVersion kv.2.filetype)).getLastD v0 := by
  induction dict with
  | nil => intro v0 s0; rfl
  | cons kv rest ih =>
    intro v0 s0
    show (reclassify (reclassStep (v0, s0) kv.2) rest).1 = _
    rcases hs : reclassStep (v0, s0) kv.2 with ⟨v1, s1⟩
    have hv1 : v1 = (tagVersion kv.2.filetype).getD v0 := by
      have := reclassStep_fst (v0, s0) kv.2
      rw [hs] at this; exact this
    rw [ih v1 s1, hv1]
    cases htv : tagVersion kv.2.filetype with
    | none =>
      simp only [List.filterMap_cons, htv, Option.getD_none]
    | some w =>
      simp only [List.filterMap_cons, htv, Option.getD_some, List.getLastD_cons]

/-- The reclassified structured flag is cleared exactly when some entry is
DISU. -/
theorem reclassify_snd (dict : UnitDict) : ∀ (v0 : String) (s0 : Bool),
    (reclassify (v0, s0) dict).2 =
      (s0 && !(dict.any (fun kv => kv.2.filetype == "DISU"))) := by
  induction dict with
  | nil => intro v0 s0; simp [reclassify]
  | cons kv rest ih =>
    intro v0 s0
    show (reclassify (reclassStep (v0, s0) kv.2) rest).2 = _
    rcases hs : reclassStep (v0, s0) kv.2 with ⟨v1, s1⟩
    have hs1 : s1 = (s0 && !(kv.2.filetype == "DISU")) := by
      have := reclassStep_snd (v0, s0) kv.2
      rw [hs] at this; exact this
    rw [ih v1 s1, hs1]
    simp [List.any_cons, Bool.and_assoc]

/-- A non-empty list of equal elements has that element as its last. -/
theorem getLastD_all_eq (l : List String) (a : String) :
    ∀ d : String, l ≠ [] → (∀ x ∈ l, x = a) → l.getLastD d = a := by
  induction l with
  | nil => intro d hne _; exact absurd rfl hne
  | cons x xs ih =>
    intro d _ hall
    rw [List.getLastD_cons]
    cases xs with
    | nil => simpa using hall x (by simp)
    | cons y ys =>
      exact ih x (by simp) (fun z hz => hall z (List.mem_cons_of_mem x hz))

/-- When every version-inducing entry of the manifest induces the same
version V and at least one version-inducing entry exists, the
reclassification pre-pass yields V. -/
theorem reclassify_uniform_fst (dict : UnitDict) (v0 : String) (s0 : Bool)
    (V : String)
    (hall : ∀ kv ∈ dict, ∀ w, tagVersion kv.2.filetype = some w → w = V)
    (hex : ∃ kv ∈ dict, (tagVersion kv.2.filetype).isSome = true) :
    (reclassify (v0, s0) dict).1 = V := by
  rw [reclassify_fst]
  apply getLastD_all_eq
  · obtain ⟨kv, hkv, hP⟩ := hex
    obtain ⟨w, hw⟩ := Option.isSome_iff_exists.mp hP
    have : w ∈ dict.filterMap (fun kv => tagVersion kv.2.filetype) :=
      List.mem_filterMap.mpr ⟨kv, hkv, hw⟩
    intro h0; rw [h0] at this; simp at this
  · intro x hx
    obtain ⟨kv, hkv, htv⟩ := List.mem_filterMap.mp hx
    exact hall kv hkv x htv

/-- The dispatch loop only ever appends to the invocation trace. -/
theorem dispatch_trace_prefix (fg : Bool) (L : Loader) (lo : List String) :
    ∀ (l : UnitDict) (st : DispatchSt) (tr : List Ev),
    ∃ ext, (dispatch fg L lo st tr l).2 = tr ++ ext := by
  intro l
  induction l with
  | nil => intro st tr; exact ⟨[], by simp [dispatch]⟩
  | cons kv rest ih =>
    intro st tr
    show ∃ ext, (match dispatchStep fg L lo st kv.1 kv.2 with
      | .halt e ev => (Except.error e, tr ++ [ev])
      | .next st2 evs => dispatch fg L lo st2 (tr ++ evs) rest).2 = tr ++ ext
    cases hs : dispatchStep fg L lo st kv.1 kv.2 with
    | halt e ev => exact ⟨[ev], rfl⟩
    | next st2 evs =>
      obtain ⟨ext2, hext2⟩ := ih st2 (tr ++ evs)
      exact ⟨evs ++ ext2, by simp [hext2]⟩

/-- The post-dispatch wrap-up keeps the trace of the dispatch result. -/
theorem finishDispatch_snd (dict : UnitDict)
    (p : Except LoadErr DispatchSt × List Ev) :
    (finishDispatch dict p).2 = p.2 := by
  rcases p with ⟨res, tr2⟩
  cases res <;> rfl

/-- The tail phase of the load only ever appends to the invocation trace. -/
theorem loadRest_trace_prefix (ml : MlState) (succ : List String)
    (dict : UnitDict) (tr : List Ev) (L : Loader)
    (lo : Option (List String)) (fg : Bool) :
    ∃ ext, (loadRest ml succ dict tr L lo fg).2 = tr ++ ext := by
  cases lo with
  | none =>
    unfold loadRest
    dsimp only
    obtain ⟨ext, hext⟩ := dispatch_trace_prefix fg L (dict.map fun kv => kv.2.filetype)
      dict { ml := ml, succeeded := succ, notLoaded := [] } tr
    rw [if_pos (show ([] : List String).isEmpty = true from rfl)]
    exact ⟨ext, by rw [finishDispatch_snd]; exact hext⟩
  | some l =>
    unfold loadRest
    dsimp only
    by_cases hemp : (notFoundTags l dict).isEmpty = true
    · rw [if_pos hemp]
      obtain ⟨ext, hext⟩ := dispatch_trace_prefix fg L (normLoadOnly l)
        dict { ml := ml, succeeded := succ, notLoaded := [] } tr
      exact ⟨ext, by rw [finishDispatch_snd]; exact hext⟩
    · rw [if_neg hemp]
      exact ⟨[], by simp⟩

/-- When the manifest has a discretization entry, the first loader ever
invoked by the load is the discretization loader, with the model state as
left by the pre-pass. -/
theorem load_trace_head (dict : UnitDict) (L : Loader)
    (lo : Option (List String)) (fg : Bool) (v0 : String)
    (dk : Nat) (de : NamEntry) (hdis : findDis dict = some (dk, de)) :
    (load dict L lo fg v0).2.head? = some (mkEv dk de (mlPre dict v0)) := by
  unfold load
  rw [hdis]
  dsimp only
  cases hf : (L dk).fails with
  | some msg => cases fg <;> simp
  | none =>
    cases hb : findFiletype "BAS6" dict with
    | none =>
      dsimp only
      obtain ⟨ext, hext⟩ := loadRest_trace_prefix (attachPackage (mlPre dict v0) de (L dk))
        [de.filename] (eraseKey dict dk) [mkEv dk de (mlPre dict v0)] L lo fg
      rw [hext]; rfl
    | some kv =>
      rcases kv with ⟨bk, be⟩
      dsimp only
      cases hbf : (L bk).fails with
      | some msg => rfl
      | none =>
        obtain ⟨ext, hext⟩ := loadRest_trace_prefix
          (attachPackage (attachPackage (mlPre dict v0) de (L dk)) be (L bk))
          [de.filename, be.filename] (eraseKey (eraseKey dict dk) bk)
          [mkEv dk de (mlPre dict v0), mkEv bk be (attachPackage (mlPre dict v0) de (L dk))]
          L lo fg
        rw [hext]; rfl

/-- The unit resets leave the structured flag at its constructor value. -/
theorem mlAfterUnits_structured (dict : UnitDict) (v0 : String) :
    (mlAfterUnits dict v0).structured = true := by
  unfold mlAfterUnits
  dsimp only
  cases hg : lastFiletype "GLOBAL" dict <;>
    cases hl : lastFiletype "LIST" dict <;>
    by_cases hv : (v0 == "mf2k") = true <;>
    simp [initModel, hg, hl, hv]

/-- The peek changes neither the version nor the structured flag. -/
theorem peekBas_version_structured (ml : MlState) (fs : FileStream) :
    (peekBas ml fs).1.version = ml.version ∧
    (peekBas ml fs).1.structured = ml.structured := by
  unfold peekBas
  dsimp only
  split <;> exact ⟨rfl, rfl⟩

/-- The model state handed to the discretization loader carries exactly the
reclassified version and structured flag. -/
theorem mlPre_version_structured (dict : UnitDict) (v0 : String) :
    (mlPre dict v0).version = (reclassify (v0, true) dict).1 ∧
    (mlPre dict v0).structured = (reclassify (v0, true) dict).2 := by
  unfold mlPre
  dsimp only
  rw [mlAfterUnits_structured]
  cases hb : findFiletype "BAS6" dict with
  | none => exact ⟨rfl, rfl⟩
  | some kv =>
    dsimp only
    exact peekBas_version_structured _ kv.2.stream

/-- C5: version reclassification is a pre-pass over the whole manifest; the
version (and structured flag) it computes is in effect at the moment the
discretization loader is invoked, which is before any other loader runs;
and the pre-pass maps NWT/UPW manifests to mfnwt, GLO manifests to mf2k,
SMS manifests to mfusg and DISU manifests to mfusg with the structured
flag cleared. -/
theorem c5_version_prepass (dict : UnitDict) (L : Loader)
    (lo : Option (List String)) (fg : Bool) (v0 : String) :
    (∀ dk de, findDis dict = some (dk, de) →
      (load dict L lo fg v0).2.head? = some
        { unit := dk, filetype := de.filetype
          version := (reclassify (v0, true) dict).1
          structured := (reclassify (v0, true) dict).2 }) ∧
    (∀ (v1 : String) (s0 : Bool),
      ((∃ kv ∈ dict, kv.2.filetype = "NWT" ∨ kv.2.filetype = "UPW") →
        (∀ kv ∈ dict, (tagVersion kv.2.filetype).isSome = true →
          kv.2.filetype = "NWT" ∨ kv.2.filetype = "UPW") →
        reclassify (v1, s0) dict = ("mfnwt", s0)) ∧
      ((∃ kv ∈ dict, kv.2.filetype = "GLO") →
        (∀ kv ∈ dict, (tagVersion kv.2.filetype).isSome = true →
          kv.2.filetype = "GLO") →
        reclassify (v1, s0) dict = ("mf2k", s0)) ∧
      ((∃ kv ∈ dict, kv.2.filetype = "SMS") →
        (∀ kv ∈ dict, (tagVersion kv.2.filetype).isSome = true →
          kv.2.filetype = "SMS") →
        reclassify (v1, s0) dict = ("mfusg", s0)) ∧
      ((∃ kv ∈ dict, kv.2.filetype = "DISU") →
        (∀ kv ∈ dict, (tagVersion kv.2.filetype).isSome = true →
          kv.2.filetype = "DISU") →
        reclassify (v1, s0) dict = ("mfusg", false))) := by
  constructor
  · intro dk de hdis
    rw [load_trace_head dict L lo fg v0 dk de hdis]
    have h2 := mlPre_version_structured dict v0
    unfold mkEv
    rw [h2.1, h2.2]
  · intro v1 s0
    have hsnd := reclassify_snd dict v1 s0
    have hnod : (∀ kv ∈ dict, (tagVersion kv.2.filetype).isSome = true →
        kv.2.filetype ≠ "DISU") →
        (dict.any (fun kv => kv.2.filetype == "DISU")) = false := by
      intro hne
      rw [List.any_eq_false]
      intro kv hkv hcon
      have heq : kv.2.filetype = "DISU" := by simpa using hcon
      exact hne kv hkv (by rw [heq]; rfl) heq
    have hpair : ∀ (a : String) (b : Bool),
        (reclassify (v1, s0) dict).1 = a → (reclassify (v1, s0) dict).2 = b →
        reclassify (v1, s0) dict = (a, b) := by
      intro a b h1 h2
      rcases hr : reclassify (v1, s0) dict with ⟨x, y⟩
      rw [hr] at h1 h2; simp only at h1 h2; rw [h1, h2]
    refine ⟨?_, ?_, ?_, ?_⟩
    · intro hex hall
      refine hpair "mfnwt" s0 ?_ ?_
      · apply reclassify_uniform_fst dict v1 s0 "mfnwt"
        · intro kv hkv w hw
          rcases hall kv hkv (by rw [hw]; rfl) with h | h <;>
            · rw [h] at hw; simpa [tagVersion] using hw.symm
        · obtain ⟨kv, hkv, hft⟩ := hex
          exact ⟨kv, hkv, by rcases hft with h | h <;> simp [tagVersion, h]⟩
      · rw [hsnd, hnod ?_]
        · simp
        · intro kv hkv hs
          rcases hall kv hkv hs with h | h <;> simp [h]
    · intro hex hall
      refine hpair "mf2k" s0 ?_ ?_
      · apply reclassify_uniform_fst dict v1 s0 "mf2k"
        · intro kv hkv w hw
          have h := hall kv hkv (by rw [hw]; rfl)
          rw [h] at hw; simpa [tagVersion] using hw.symm
        · obtain ⟨kv, hkv, hft⟩ := hex
          exact ⟨kv, hkv, by simp [tagVersion, hft]⟩
      · rw [hsnd, hnod ?_]
        · simp
        · intro kv hkv hs
          have h := hall kv hkv hs; simp [h]
    · intro hex hall
      refine hpair "mfusg" s0 ?_ ?_
      · apply reclassify_uniform_fst dict v1 s0 "mfusg"
        · intro kv hkv w hw
          have h := hall kv hkv (by rw [hw]; rfl)
          rw [h] at hw; simpa [tagVersion] using hw.symm
        · obtain ⟨kv, hkv, hft⟩ := hex
          exact ⟨kv, hkv, by simp [tagVersion, hft]⟩
      · rw [hsnd, hnod ?_]
        · simp
        · intro kv hkv hs
          have h := hall kv hkv hs; simp [h]
    · intro hex hall
      refine hpair "mfusg" false ?_ ?_
      · apply reclassify_uniform_fst dict v1 s0 "mfusg"
        · intro kv hkv w hw
          have h := hall kv hkv (by rw [hw]; rfl)
          rw [h] at hw; simpa [tagVersion] using hw.symm
        · obtain ⟨kv, hkv, hft⟩ := hex
          exact ⟨kv, hkv, by simp [tagVersion, hft]⟩
      · rw [hsnd]
        obtain ⟨kv, hkv, hft⟩ := hex
        have hany : (dict.any (fun kv => kv.2.filetype == "DISU")) = true :=
          List.any_eq_true.mpr ⟨kv, hkv, by simp [hft]⟩
        rw [hany]; simp

/-- Witness for C5: a manifest with an NWT entry followed by the DIS entry;
the DIS loader already sees version mfnwt. -/
theorem c5_version_prepass_witness :
    ((load [(20, entNwt), (10, entDis)] okLoader none true "mf2005").2.head? =
      some { unit := 10, filetype := "DIS", version := "mfnwt", structured := true }) ∧
    reclassify ("mf2005", true) [(20, entNwt), (10, entDis)] = ("mfnwt", true) := by
  constructor
  · have h := (c5_version_prepass [(20, entNwt), (10, entDis)] okLoader none true "mf2005").1
      10 entDis (by decide)
    rw [h]
    decide
  · exact ((c5_version_prepass [(20, entNwt), (10, entDis)] okLoader none true "mf2005").2
      "mf2005" true).1 (by decide) (by decide)

/-- A list does not contain an element iff the element is not a member. -/
theorem contains_false_iff {α : Type} [BEq α] [LawfulBEq α] (l : List α) (a : α) :
    l.contains a = false ↔ a ∉ l := by
  rw [← Bool.not_eq_true, List.elem_iff]

/-- The identity step satisfies the frame. -/
theorem stepFrame_refl (L : Loader) (key : Nat) (st : DispatchSt) :
    StepFrame L key st st [] :=
  ⟨fun _ hx => hx, fun _ hx => hx, id, fun _ hb => hb, fun _ hj => Or.inl hj,
    by simp, fun _ _ => rfl⟩

/-- Appending a file to the not-loaded list satisfies the frame. -/
theorem stepFrame_notLoaded (L : Loader) (key : Nat) (st : DispatchSt)
    (fn : String) :
    StepFrame L key st { st with notLoaded := st.notLoaded ++ [fn] } [] :=
  ⟨fun _ hx => hx, fun _ hx => List.mem_append_left _ hx, id, fun _ hb => hb,
    fun _ hj => Or.inl hj, by simp, fun _ _ => rfl⟩

/-- A successful load (package attach) satisfies the frame. -/
theorem stepFrame_attach (L : Loader) (key : Nat) (st : DispatchSt)
    (item : NamEntry) :
    StepFrame L key st
      { st with ml := attachPackage st.ml item (L key)
                succeeded := st.succeeded ++ [item.filename] }
      [mkEv key item st.ml] := by
  refine ⟨?_, fun _ hx => hx, id, fun _ hb => hb, ?_, ?_, fun _ _ => rfl⟩
  · intro x hx
    exact List.mem_append_left _ hx
  · intro j hj
    have hj2 : j ∈ st.ml.pop_key_list ++ (L key).claims := List.elem_iff.mp hj
    rcases List.mem_append.mp hj2 with hj2 | hj2
    · exact Or.inl (List.elem_iff.mpr hj2)
    · exact Or.inr (List.elem_iff.mpr hj2)
  · intro ev hev
    rw [List.mem_singleton] at hev
    rw [hev]; rfl

/-- A caught loader failure (forgiving mode) satisfies the frame. -/
theorem stepFrame_failrec (L : Loader) (key : Nat) (st : DispatchSt)
    (item : NamEntry) :
    StepFrame L key st
      { st with ml := { st.ml with load_fail := true }
                notLoaded := st.notLoaded ++ [item.filename] }
      [mkEv key item st.ml] := by
  refine ⟨fun _ hx => hx, fun _ hx => List.mem_append_left _ hx, fun _ => rfl,
    fun _ hb => hb, fun _ hj => Or.inl hj, ?_, fun _ _ => rfl⟩
  intro ev hev
  rw [List.mem_singleton] at hev
  rw [hev]; rfl

/-- Registering an external binding for the processed unit satisfies the
frame. -/
theorem stepFrame_dataAdd (L : Loader) (key : Nat) (st : DispatchSt)
    (b : ExtBinding) (hb : b.unit = key) :
    StepFrame L key st
      { st with ml := { st.ml with externals := st.ml.externals ++ [b] } }
      [] := by
  refine ⟨fun _ hx => hx, fun _ hx => hx, id, ?_, fun _ hj => Or.inl hj,
    by simp, ?_⟩
  · intro b2 hb2
    exact List.mem_append_left _ hb2
  · intro k2 hk2
    show (st.ml.externals ++ [b]).countP (fun b => b.unit == k2) = _
    rw [List.countP_append]
    have hz : (b.unit == k2) = false := by
      rw [hb]
      simp only [beq_eq_false_iff_ne, ne_eq]
      intro hcon; exact hk2 hcon.symm
    simp [List.countP_cons, hz]

/-- Every continuing dispatch iteration satisfies the frame. -/
theorem dispatchStep_next_frame {fg : Bool} {L : Loader} {lo : List String}
    {st : DispatchSt} {key : Nat} {item : NamEntry} {st2 : DispatchSt}
    {evs : List Ev}
    (h : dispatchStep fg L lo st key item = .next st2 evs) :
    StepFrame L key st st2 evs := by
  unfold dispatchStep at h
  dsimp only at h
  split at h
  · split at h
    · split at h
      · cases h
        exact stepFrame_attach L key st item
      · split at h
        · cases h
          exact stepFrame_failrec L key st item
        · cases h
    · cases h
      exact stepFrame_notLoaded L key st item.filename
  · split at h
    · cases h
      exact stepFrame_notLoaded L key st item.filename
    · cases h
      by_cases hp : st.ml.pop_key_list.contains key = true
      · rw [if_pos hp]
        exact stepFrame_refl L key st
      · rw [if_neg hp]
        by_cases hu : (st.ml.externals.map (fun b => b.unit)).contains key = true
        · rw [if_pos hu]
          exact stepFrame_refl L key st
        · rw [if_neg hu]
          exact stepFrame_dataAdd L key st { unit := key, fname := item.filename, binflag := containsSub (toLowerS item.filetype) "binary", output := false } rfl

/-- In forgiving mode a dispatch iteration never halts. -/
theorem dispatchStep_forgive_next (L : Loader) (lo : List String)
    (st : DispatchSt) (key : Nat) (item : NamEntry) :
    ∃ st2 evs, dispatchStep true L lo st key item = .next st2 evs := by
  cases hs : dispatchStep true L lo st key item with
  | next st2 evs => exact ⟨st2, evs, rfl⟩
  | halt e ev =>
    exfalso
    unfold dispatchStep at hs
    dsimp only at hs
    split at hs
    · split at hs
      · split at hs
        · cases hs
        · split at hs
          · cases hs
          · simp_all
      · cases hs
    · split at hs
      · cases hs
      · cases hs

/-- In forgiving mode the dispatch loop always returns a state. -/
theorem dispatch_forgive_ok (L : Loader) (lo : List String) :
    ∀ (l : UnitDict) (st : DispatchSt) (tr : List Ev),
    ∃ st2 tr2, dispatch true L lo st tr l = (.ok st2, tr2) := by
  intro l
  induction l with
  | nil => intro st tr; exact ⟨st, tr, rfl⟩
  | cons kv rest ih =>
    intro st tr
    obtain ⟨st1, evs, hs⟩ := dispatchStep_forgive_next L lo st kv.1 kv.2
    obtain ⟨st2, tr2, hd⟩ := ih st1 (tr ++ evs)
    refine ⟨st2, tr2, ?_⟩
    show (match dispatchStep true L lo st kv.1 kv.2 with
      | .halt e ev => (Except.error e, tr ++ [ev])
      | .next st2 evs => dispatch true L lo st2 (tr ++ evs) rest) = (.ok st2, tr2)
    rw [hs]
    exact hd

/-- Frame conditions of a completed dispatch run. -/
theorem dispatch_ok_frame {fg : Bool} {L : Loader} {lo : List String} :
    ∀ {l : UnitDict} {st : DispatchSt} {tr : List Ev} {st2 : DispatchSt}
      {tr2 : List Ev},
    dispatch fg L lo st tr l = (.ok st2, tr2) →
    (∀ x ∈ st.ml.packages, x ∈ st2.ml.packages) ∧
    (∀ x ∈ st.notLoaded, x ∈ st2.notLoaded) ∧
    (st.ml.load_fail = true → st2.ml.load_fail = true) ∧
    (∀ b ∈ st.ml.externals, b ∈ st2.ml.externals) ∧
    (∀ j, (∀ k1, ((L k1).claims).contains j = false) →
      st.ml.pop_key_list.contains j = false →
      st2.ml.pop_key_list.contains j = false) := by
  intro l
  induction l with
  | nil =>
    intro st tr st2 tr2 h
    cases h
    exact ⟨fun x hx => hx, fun x hx => hx, fun hx => hx, fun b hb => hb,
      fun j _ hj => hj⟩
  | cons kv rest ih =>
    intro st tr st2 tr2 h
    rw [show dispatch fg L lo st tr (kv :: rest) =
        (match dispatchStep fg L lo st kv.1 kv.2 with
          | .halt e ev => (Except.error e, tr ++ [ev])
          | .next st1 evs => dispatch fg L lo st1 (tr ++ evs) rest) from rfl] at h
    cases hs : dispatchStep fg L lo st kv.1 kv.2 with
    | halt e ev => rw [hs] at h; cases h
    | next st1 evs =>
      rw [hs] at h
      obtain ⟨hp1, hn1, hl1, he1, hk1, _, _⟩ := dispatchStep_next_frame hs
      obtain ⟨hp2, hn2, hl2, he2, hk2⟩ := ih h
      refine ⟨fun x hx => hp2 x (hp1 x hx), fun x hx => hn2 x (hn1 x hx),
        fun hx => hl2 (hl1 hx), fun b hb => he2 b (he1 b hb), ?_⟩
      intro j hcl hj
      apply hk2 j hcl
      cases hc : st1.ml.pop_key_list.contains j
      · rfl
      · rcases hk1 j hc with h2 | h2
        · rw [hj] at h2; cases h2
        · rw [hcl kv.1] at h2; cases h2

/-- Every invocation recorded by the dispatch loop either was already in
the trace or belongs to a dictionary entry with a registered package. -/
theorem dispatch_trace_units {fg : Bool} {L : Loader} {lo : List String} :
    ∀ {l : UnitDict} {st : DispatchSt} {tr : List Ev},
    ∀ ev ∈ (dispatch fg L lo st tr l).2, ev ∈ tr ∨
      ∃ kv ∈ l, ev.unit = kv.1 ∧ kv.2.hasPackage = true := by
  intro l
  induction l with
  | nil =>
    intro st tr ev hev
    exact Or.inl hev
  | cons kv rest ih =>
    intro st tr ev hev
    rw [show dispatch fg L lo st tr (kv :: rest) =
        (match dispatchStep fg L lo st kv.1 kv.2 with
          | .halt e ev => (Except.error e, tr ++ [ev])
          | .next st1 evs => dispatch fg L lo st1 (tr ++ evs) rest) from rfl] at hev
    have hpk_of_ne : ∀ (st2 : DispatchSt) (evs : List Ev),
        dispatchStep fg L lo st kv.1 kv.2 = .next st2 evs →
        evs ≠ [] → kv.2.hasPackage = true := by
      intro st2 evs hs hne
      unfold dispatchStep at hs
      dsimp only at hs
      split at hs
      · assumption
      · split at hs
        · cases hs; exact absurd rfl hne
        · cases hs; exact absurd rfl hne
    have hhalt_pk : ∀ (e : LoadErr) (ev2 : Ev),
        dispatchStep fg L lo st kv.1 kv.2 = .halt e ev2 →
        kv.2.hasPackage = true ∧ ev2.unit = kv.1 := by
      intro e ev2 hs
      unfold dispatchStep at hs
      dsimp only at hs
      split at hs
      · refine ⟨by assumption, ?_⟩
        split at hs
        · split at hs
          · cases hs
          · split at hs
            · cases hs
            · cases hs; rfl
        · cases hs
      · split at hs
        · cases hs
        · cases hs
    cases hs : dispatchStep fg L lo st kv.1 kv.2 with
    | halt e ev2 =>
      rw [hs] at hev
      simp only [List.mem_append, List.mem_singleton] at hev
      rcases hev with hev | hev
      · exact Or.inl hev
      · obtain ⟨hpk, hu⟩ := hhalt_pk e ev2 hs
        exact Or.inr ⟨kv, by simp, by rw [hev, hu], hpk⟩
    | next st1 evs =>
      rw [hs] at hev
      rcases ih ev hev with hin | ⟨kv2, hkv2, hu, hpk⟩
      · rw [List.mem_append] at hin
        rcases hin with hin | hin
        · exact Or.inl hin
        · obtain ⟨_, _, _, _, _, hevu, _⟩ := dispatchStep_next_frame hs
          have hne : evs ≠ [] := by intro h0; rw [h0] at hin; cases hin
          exact Or.inr ⟨kv, by simp, hevu ev hin, hpk_of_ne st1 evs hs hne⟩
      · exact Or.inr ⟨kv2, List.mem_cons_of_mem kv hkv2, hu, hpk⟩

/-- The cleanup pass does not touch the packages, the load-failed flag or
the pop list, and only removes externals and dictionary entries. -/
theorem cleanupFold_frame : ∀ (ks : List Nat) (ml : MlState) (d : UnitDict),
    (cleanupFold ks (ml, d)).1.packages = ml.packages ∧
    (cleanupFold ks (ml, d)).1.load_fail = ml.load_fail ∧
    (cleanupFold ks (ml, d)).1.pop_key_list = ml.pop_key_list ∧
    (∀ b ∈ (cleanupFold ks (ml, d)).1.externals, b ∈ ml.externals) ∧
    (∀ kv ∈ (cleanupFold ks (ml, d)).2, kv ∈ d) := by
  intro ks
  induction ks with
  | nil =>
    intro ml d
    exact ⟨rfl, rfl, rfl, fun _ hb => hb, fun _ hkv => hkv⟩
  | cons k0 ks ih =>
    intro ml d
    obtain ⟨h1, h2, h3, h4, h5⟩ := ih (remove_external ml k0) (eraseKey d k0)
    refine ⟨h1, h2, h3, ?_, ?_⟩
    · intro b hb
      exact List.mem_of_mem_filter (h4 b hb)
    · intro kv hkv
      exact List.mem_of_mem_filter (h5 kv hkv)

/-- Every key of the pop list is removed from both the external bindings
and the remaining dictionary by the cleanup pass. -/
theorem cleanupFold_removed : ∀ (ks : List Nat) (ml : MlState) (d : UnitDict)
    (k : Nat), k ∈ ks →
    (∀ b ∈ (cleanupFold ks (ml, d)).1.externals, b.unit ≠ k) ∧
    (∀ kv ∈ (cleanupFold ks (ml, d)).2, kv.1 ≠ k) := by
  intro ks
  induction ks with
  | nil => intro ml d k hk; cases hk
  | cons k0 ks ih =>
    intro ml d k hk
    rcases List.mem_cons.mp hk with heq | hk2
    · subst heq
      obtain ⟨_, _, _, h4, h5⟩ := cleanupFold_frame ks (remove_external ml k) (eraseKey d k)
      constructor
      · intro b hb
        have := List.of_mem_filter (h4 b hb)
        simpa using this
      · intro kv hkv
        have := List.of_mem_filter (h5 kv hkv)
        simpa using this
    · exact ih (remove_external ml k0) (eraseKey d k0) k hk2

/-- The cleanup pass does not change the binding count of a unit that is
not in the pop list. -/
theorem cleanupFold_keep : ∀ (ks : List Nat) (ml : MlState) (d : UnitDict)
    (k : Nat), ks.contains k = false →
    (cleanupFold ks (ml, d)).1.externals.countP (fun b => b.unit == k) =
      ml.externals.countP (fun b => b.unit == k) := by
  intro ks
  induction ks with
  | nil => intro ml d k _; rfl
  | cons k0 ks ih =>
    intro ml d k hk
    have hnk : k ∉ k0 :: ks := (contains_false_iff _ _).mp hk
    have hne : ¬ k = k0 := fun h0 => hnk (by rw [h0]; exact List.mem_cons_self _ _)
    have hk2 : ks.contains k = false :=
      (contains_false_iff _ _).mpr (fun h2 => hnk (List.mem_cons_of_mem _ h2))
    show (cleanupFold ks (remove_external ml k0, eraseKey d k0)).1.externals.countP _ = _
    rw [ih _ _ k hk2]
    show (ml.externals.filter (fun b => b.unit != k0)).countP (fun b => b.unit == k) = _
    rw [List.countP_filter]
    apply List.countP_congr
    intro b _
    by_cases hbu : b.unit = k
    · simp [hbu, bne_iff_ne, Ne.symm, hne]
    · simp [hbu]

/-- Removing an absent unit from the external bindings is the identity. -/
theorem remove_external_absent (ml : MlState) (k : Nat)
    (h : ∀ b ∈ ml.externals, b.unit ≠ k) : remove_external ml k = ml := by
  unfold remove_external
  have hf : ml.externals.filter (fun b => b.unit != k) = ml.externals :=
    List.filter_eq_self.mpr (fun b hb => by simpa using h b hb)
  rw [hf]

/-- Unique keys determine unique entries. -/
theorem nodup_key_eq : ∀ {dict : UnitDict},
    (dict.map Prod.fst).Nodup → ∀ {k : Nat} {a b : NamEntry},
    (k, a) ∈ dict → (k, b) ∈ dict → a = b := by
  intro dict
  induction dict with
  | nil => intro _ k a b ha; cases ha
  | cons kv rest ih =>
    intro hnd k a b ha hb
    have hnd2 := hnd
    rw [List.map_cons, List.nodup_cons] at hnd2
    rcases List.mem_cons.mp ha with ha1 | ha2 <;>
      rcases List.mem_cons.mp hb with hb1 | hb2
    · rw [← ha1] at hb1; exact (Prod.mk.injEq _ _ _ _).mp hb1.symm |>.2
    · exfalso
      apply hnd2.1
      rw [← ha1]
      exact List.mem_map.mpr ⟨(k, b), hb2, rfl⟩
    · exfalso
      apply hnd2.1
      rw [← hb1]
      exact List.mem_map.mpr ⟨(k, a), ha2, rfl⟩
    · exact ih hnd2.2 ha2 hb2

/-- Erasing a key keeps every other entry. -/
theorem mem_eraseKey_of_ne {dict : UnitDict} {k dk : Nat} {item : NamEntry}
    (hmem : (k, item) ∈ dict) (hne : k ≠ dk) : (k, item) ∈ eraseKey dict dk := by
  unfold eraseKey
  exact List.mem_filter.mpr ⟨hmem, by simpa using hne⟩

/-- Erased dictionaries only shrink. -/
theorem eraseKey_subset (dict : UnitDict) (k : Nat) :
    ∀ kv ∈ eraseKey dict k, kv ∈ dict :=
  fun _ hkv => List.mem_of_mem_filter hkv

/-- Erasing keys preserves key uniqueness. -/
theorem eraseKey_keys_nodup (dict : UnitDict) (k : Nat)
    (hnd : (dict.map Prod.fst).Nodup) :
    ((eraseKey dict k).map Prod.fst).Nodup := by
  unfold eraseKey
  exact hnd.sublist (List.Sublist.map Prod.fst (List.filter_sublist dict))

/-- What a successful filetype search returns. -/
theorem findFiletype_some {ft : String} {dict : UnitDict} {bk : Nat}
    {be : NamEntry} (h : findFiletype ft dict = some (bk, be)) :
    (bk, be) ∈ dict ∧ be.filetype = ft := by
  unfold findFiletype at h
  refine ⟨List.mem_of_find?_eq_some h, ?_⟩
  have := List.find?_some h
  simpa using this

/-- What a successful discretization search returns. -/
theorem findDis_some {dict : UnitDict} {dk : Nat} {de : NamEntry}
    (h : findDis dict = some (dk, de)) :
    (dk, de) ∈ dict ∧ (de.filetype = "DIS" ∨ de.filetype = "DISU") := by
  unfold findDis at h
  refine ⟨List.mem_of_find?_eq_some h, ?_⟩
  have := List.find?_some h
  simpa using this

/-- The state after the peek is the input state or the input state with
the free-format flag set. -/
theorem peekBas_state_cases (ml : MlState) (fs : FileStream) :
    (peekBas ml fs).1 = ml ∨
      (peekBas ml fs).1 = { ml with free_format_input := true } := by
  unfold peekBas
  dsimp only
  split
  · right; rfl
  · left; rfl

/-- The model handed to the discretization loader still has empty package,
external, and pop bookkeeping and a clear load-failed flag. -/
theorem mlPre_fields (dict : UnitDict) (v0 : String) :
    (mlPre dict v0).packages = [] ∧ (mlPre dict v0).externals = [] ∧
    (mlPre dict v0).pop_key_list = [] ∧ (mlPre dict v0).load_fail = false := by
  have hbase : ∀ (d : UnitDict) (v : String),
      (mlAfterUnits d v).packages = [] ∧ (mlAfterUnits d v).externals = [] ∧
      (mlAfterUnits d v).pop_key_list = [] ∧ (mlAfterUnits d v).load_fail = false := by
    intro d v
    unfold mlAfterUnits
    dsimp only
    cases hg : lastFiletype "GLOBAL" d <;>
      cases hl : lastFiletype "LIST" d <;>
      by_cases hv : (v == "mf2k") = true <;>
      simp [initModel, hg, hl, hv]
  unfold mlPre
  dsimp only
  cases hb : findFiletype "BAS6" dict with
  | none => exact hbase dict v0
  | some kv =>
    dsimp only
    obtain ⟨h1, h2, h3, h4⟩ := hbase dict v0
    rcases peekBas_state_cases
        { mlAfterUnits dict v0 with
          version := (reclassify (v0, (mlAfterUnits dict v0).structured) dict).1
          structured := (reclassify (v0, (mlAfterUnits dict v0).structured) dict).2 }
        kv.2.stream with hc | hc <;>
      rw [hc] <;> exact ⟨h1, h2, h3, h4⟩

/-- Unfolding the load after a successful discretization load, no BAS6
entry present. -/
theorem load_after_dis_nobas {dict : UnitDict} {L : Loader} {dk : Nat}
    {de : NamEntry} (lo : Option (List String)) (fg : Bool) (v0 : String)
    (hdis : findDis dict = some (dk, de)) (hok : (L dk).fails = none)
    (hbas : findFiletype "BAS6" dict = none) :
    load dict L lo fg v0 =
      loadRest (attachPackage (mlPre dict v0) de (L dk)) [de.filename]
        (eraseKey dict dk) [mkEv dk de (mlPre dict v0)] L lo fg := by
  unfold load
  rw [hdis]
  dsimp only
  rw [hok]
  dsimp only
  rw [hbas]

/-- Unfolding the load after successful discretization and BAS6 loads. -/
theorem load_after_dis_bas {dict : UnitDict} {L : Loader} {dk bk : Nat}
    {de be : NamEntry} (lo : Option (List String)) (fg : Bool) (v0 : String)
    (hdis : findDis dict = some (dk, de)) (hok : (L dk).fails = none)
    (hbas : findFiletype "BAS6" dict = some (bk, be))
    (hbok : (L bk).fails = none) :
    load dict L lo fg v0 =
      loadRest (attachPackage (attachPackage (mlPre dict v0) de (L dk)) be (L bk))
        [de.filename, be.filename] (eraseKey (eraseKey dict dk) bk)
        [mkEv dk de (mlPre dict v0),
          mkEv bk be (attachPackage (mlPre dict v0) de (L dk))] L lo fg := by
  unfold load
  rw [hdis]
  dsimp only
  rw [hok]
  dsimp only
  rw [hbas]
  dsimp only
  rw [hbok]

/-- A discretization loader failure aborts the load: with the wrapped
file-naming message in forgiving mode, with the raw loader error in strict
mode. -/
theorem load_dis_fail {dict : UnitDict} {L : Loader} {dk : Nat}
    {de : NamEntry} {msg : String} (lo : Option (List String)) (v0 : String)
    (hdis : findDis dict = some (dk, de)) (hf : (L dk).fails = some msg) :
    load dict L lo true v0 =
      (.error (.disLoadFailed (basename de.filename) msg),
        [mkEv dk de (mlPre dict v0)]) ∧
    load dict L lo false v0 =
      (.error (.loaderErr msg), [mkEv dk de (mlPre dict v0)]) := by
  constructor <;>
    · unfold load
      rw [hdis]
      dsimp only
      rw [hf]
      simp

/-- A BAS6 loader failure aborts the load with the wrapped file-naming
message, in both modes. -/
theorem load_bas_fail {dict : UnitDict} {L : Loader} {dk bk : Nat}
    {de be : NamEntry} {msg : String} (lo : Option (List String)) (fg : Bool)
    (v0 : String) (hdis : findDis dict = some (dk, de))
    (hok : (L dk).fails = none)
    (hbas : findFiletype "BAS6" dict = some (bk, be))
    (hbf : (L bk).fails = some msg) :
    load dict L lo fg v0 =
      (.error (.basLoadFailed (basename be.filename) msg),
        [mkEv dk de (mlPre dict v0),
          mkEv bk be (attachPackage (mlPre dict v0) de (L dk))]) := by
  unfold load
  rw [hdis]
  dsimp only
  rw [hok]
  dsimp only
  rw [hbas]
  dsimp only
  rw [hbf]

/-- Unfolding one iteration of the dispatch loop. -/
theorem dispatch_cons (fg : Bool) (L : Loader) (lo : List String)
    (st : DispatchSt) (tr : List Ev) (kv : Nat × NamEntry) (rest : UnitDict) :
    dispatch fg L lo st tr (kv :: rest) =
      (match dispatchStep fg L lo st kv.1 kv.2 with
        | .halt e ev => (Except.error e, tr ++ [ev])
        | .next st2 evs => dispatch fg L lo st2 (tr ++ evs) rest) := rfl

/-- A unit with no bindings is absent from the external unit list. -/
theorem units_contains_false {l : List ExtBinding} {k : Nat}
    (h : l.countP (fun b => b.unit == k) = 0) :
    (l.map (fun b => b.unit)).contains k = false := by
  apply (contains_false_iff _ _).mpr
  intro hmem
  obtain ⟨b, hb, hbu⟩ := List.mem_map.mp hmem
  have := List.countP_eq_zero.mp h b hb
  simp [hbu] at this

/-- Step evaluation: caught loader failure in forgiving mode. -/
theorem dispatchStep_eval_fail_forgive (L : Loader) (lo : List String)
    (st : DispatchSt) (k : Nat) (item : NamEntry) (msg : String)
    (hpk : item.hasPackage = true) (hlo : lo.contains item.filetype = true)
    (hft : item.filetype ≠ "DIS") (hf : (L k).fails = some msg) :
    dispatchStep true L lo st k item =
      .next { st with ml := { st.ml with load_fail := true }
                      notLoaded := st.notLoaded ++ [item.filename] }
        [mkEv k item st.ml] := by
  unfold dispatchStep
  rw [if_pos hpk,
    if_pos (show (lo.contains item.filetype && item.filetype != "DIS") = true
      by rw [Bool.and_eq_true]; exact ⟨hlo, by simp [bne_iff_ne, hft]⟩)]
  dsimp only
  rw [hf]
  simp

/-- Step evaluation: uncaught loader failure in strict mode. -/
theorem dispatchStep_eval_fail_strict (L : Loader) (lo : List String)
    (st : DispatchSt) (k : Nat) (item : NamEntry) (msg : String)
    (hpk : item.hasPackage = true) (hlo : lo.contains item.filetype = true)
    (hft : item.filetype ≠ "DIS") (hf : (L k).fails = some msg) :
    dispatchStep false L lo st k item =
      .halt (.loaderErr msg) (mkEv k item st.ml) := by
  unfold dispatchStep
  rw [if_pos hpk,
    if_pos (show (lo.contains item.filetype && item.filetype != "DIS") = true
      by rw [Bool.and_eq_true]; exact ⟨hlo, by simp [bne_iff_ne, hft]⟩)]
  dsimp only
  rw [hf]
  simp

/-- Step evaluation: successful package load. -/
theorem dispatchStep_eval_success (fg : Bool) (L : Loader) (lo : List String)
    (st : DispatchSt) (k : Nat) (item : NamEntry)
    (hpk : item.hasPackage = true) (hlo : lo.contains item.filetype = true)
    (hft : item.filetype ≠ "DIS") (hf : (L k).fails = none) :
    dispatchStep fg L lo st k item =
      .next { st with ml := attachPackage st.ml item (L k)
                      succeeded := st.succeeded ++ [item.filename] }
        [mkEv k item st.ml] := by
  unfold dispatchStep
  rw [if_pos hpk,
    if_pos (show (lo.contains item.filetype && item.filetype != "DIS") = true
      by rw [Bool.and_eq_true]; exact ⟨hlo, by simp [bne_iff_ne, hft]⟩)]
  dsimp only
  rw [hf]

/-- Step evaluation: new external binding for an unclaimed data entry. -/
theorem dispatchStep_eval_data (fg : Bool) (L : Loader) (lo : List String)
    (st : DispatchSt) (k : Nat) (item : NamEntry)
    (hpk : item.hasPackage = false)
    (hdata : containsSub (toLowerS item.filetype) "data" = true)
    (hpop : st.ml.pop_key_list.contains k = false)
    (hcount : st.ml.externals.countP (fun b => b.unit == k) = 0) :
    dispatchStep fg L lo st k item =
      .next { st with ml := { st.ml with externals := st.ml.externals ++ [{ unit := k, fname := item.filename, binflag := containsSub (toLowerS item.filetype) "binary", output := false }] } } [] := by
  unfold dispatchStep
  rw [if_neg (by simp [hpk]), if_neg (by simp [hdata]),
    if_neg (show ¬ st.ml.pop_key_list.contains k = true by rw [hpop]; exact Bool.false_ne_true),
    if_neg (show ¬ (st.ml.externals.map (fun b => b.unit)).contains k = true by rw [units_contains_false hcount]; exact Bool.false_ne_true)]

/-- Step evaluation: unclaimed entry without the data keyword. -/
theorem dispatchStep_eval_nodata (fg : Bool) (L : Loader) (lo : List String)
    (st : DispatchSt) (k : Nat) (item : NamEntry)
    (hpk : item.hasPackage = false)
    (hdata : containsSub (toLowerS item.filetype) "data" = false) :
    dispatchStep fg L lo st k item =
      .next { st with notLoaded := st.notLoaded ++ [item.filename] } [] := by
  unfold dispatchStep
  rw [if_neg (by simp [hpk]), if_pos (by simp [hdata])]

/-- If an iteration halts, the loader of the processed entry failed. -/
theorem dispatchStep_halt_fails {fg : Bool} {L : Loader} {lo : List String}
    {st : DispatchSt} {key : Nat} {item : NamEntry} {e : LoadErr} {ev : Ev}
    (h : dispatchStep fg L lo st key item = .halt e ev) :
    ∃ m, (L key).fails = some m := by
  unfold dispatchStep at h
  dsimp only at h
  split at h
  · split at h
    · split at h
      · cases h
      · rename_i msg heq
        exact ⟨msg, heq⟩
    · cases h
  · split at h
    · cases h
    · cases h

/-- A completed dispatch leaves the binding count and pop status of a unit
outside the processed entries untouched (given no loader claims it). -/
theorem dispatch_keep {fg : Bool} {L : Loader} {lo : List String} :
    ∀ {l : UnitDict} {st : DispatchSt} {tr : List Ev} {st2 : DispatchSt}
      {tr2 : List Ev} {k : Nat},
    k ∉ l.map Prod.fst → (∀ j, ((L j).claims).contains k = false) →
    dispatch fg L lo st tr l = (.ok st2, tr2) →
    st2.ml.externals.countP (fun b => b.unit == k) =
      st.ml.externals.countP (fun b => b.unit == k) ∧
    (st.ml.pop_key_list.contains k = false →
      st2.ml.pop_key_list.contains k = false) := by
  intro l
  induction l with
  | nil =>
    intro st tr st2 tr2 k _ _ h
    cases h
    exact ⟨rfl, id⟩
  | cons kv rest ih =>
    intro st tr st2 tr2 k hk hcl h
    rw [dispatch_cons] at h
    have hk1 : ¬ k = kv.1 := fun h0 => hk (by
      rw [h0, List.map_cons]; exact List.mem_cons_self _ _)
    have hk2 : k ∉ rest.map Prod.fst := fun h2 => hk (by
      rw [List.map_cons]; exact List.mem_cons_of_mem _ h2)
    cases hs : dispatchStep fg L lo st kv.1 kv.2 with
    | halt e ev => rw [hs] at h; cases h
    | next st1 evs =>
      rw [hs] at h
      obtain ⟨_, _, _, _, hpop, _, hcnt⟩ := dispatchStep_next_frame hs
      obtain ⟨ihc, ihp⟩ := ih hk2 hcl h
      refine ⟨by rw [ihc, hcnt k hk1], ?_⟩
      intro hp0
      apply ihp
      cases hc : st1.ml.pop_key_list.contains k with
      | false => rfl
      | true =>
        rcases hpop k hc with h2 | h2
        · rw [hp0] at h2; cases h2
        · rw [hcl kv.1] at h2; cases h2

/-- In forgiving mode a failing non-structural loader is recorded: the file
lands in the not-loaded list and the load-failed flag is set. -/
theorem dispatch_fail_recorded {L : Loader} {lo : List String} :
    ∀ {l : UnitDict} {st : DispatchSt} {tr : List Ev} {st2 : DispatchSt}
      {tr2 : List Ev} {k : Nat} {item : NamEntry} {msg : String},
    (k, item) ∈ l → item.hasPackage = true →
    lo.contains item.filetype = true → item.filetype ≠ "DIS" →
    (L k).fails = some msg →
    dispatch true L lo st tr l = (.ok st2, tr2) →
    item.filename ∈ st2.notLoaded ∧ st2.ml.load_fail = true := by
  intro l
  induction l with
  | nil =>
    intro st tr st2 tr2 k item msg hmem
    cases hmem
  | cons kv rest ih =>
    intro st tr st2 tr2 k item msg hmem hpk hlo hft hf h
    rw [dispatch_cons] at h
    rcases List.mem_cons.mp hmem with heq | hmem2
    · rw [← heq] at h
      dsimp only at h
      rw [dispatchStep_eval_fail_forgive L lo st k item msg hpk hlo hft hf] at h
      obtain ⟨_, hn, hl, _, _⟩ := dispatch_ok_frame h
      refine ⟨hn item.filename ?_, hl rfl⟩
      exact List.mem_append_right _ (List.mem_singleton_self _)
    · cases hs : dispatchStep true L lo st kv.1 kv.2 with
      | halt e ev => rw [hs] at h; cases h
      | next st1 evs =>
        rw [hs] at h
        exact ih hmem2 hpk hlo hft hf h

/-- A successfully loaded entry attaches its package. -/
theorem dispatch_success_attached {fg : Bool} {L : Loader}
    {lo : List String} :
    ∀ {l : UnitDict} {st : DispatchSt} {tr : List Ev} {st2 : DispatchSt}
      {tr2 : List Ev} {k : Nat} {item : NamEntry},
    (k, item) ∈ l → item.hasPackage = true →
    lo.contains item.filetype = true → item.filetype ≠ "DIS" →
    (L k).fails = none →
    dispatch fg L lo st tr l = (.ok st2, tr2) →
    item.filetype ∈ st2.ml.packages := by
  intro l
  induction l with
  | nil =>
    intro st tr st2 tr2 k item hmem
    cases hmem
  | cons kv rest ih =>
    intro st tr st2 tr2 k item hmem hpk hlo hft hf h
    rw [dispatch_cons] at h
    rcases List.mem_cons.mp hmem with heq | hmem2
    · rw [← heq] at h
      dsimp only at h
      rw [dispatchStep_eval_success fg L lo st k item hpk hlo hft hf] at h
      obtain ⟨hp, _, _, _, _⟩ := dispatch_ok_frame h
      apply hp
      show item.filetype ∈ st.ml.packages ++ [item.filetype]
      exact List.mem_append_right _ (List.mem_singleton_self _)
    · cases hs : dispatchStep fg L lo st kv.1 kv.2 with
      | halt e ev => rw [hs] at h; cases h
      | next st1 evs =>
        rw [hs] at h
        exact ih hmem2 hpk hlo hft hf h

/-- In strict mode, if exactly the loader of one dispatched entry fails,
its raw error propagates out of the dispatch loop. -/
theorem dispatch_strict_halt {L : Loader} {lo : List String} :
    ∀ {l : UnitDict} {st : DispatchSt} {tr : List Ev} {k : Nat}
      {item : NamEntry} {msg : String},
    (l.map Prod.fst).Nodup → (k, item) ∈ l → item.hasPackage = true →
    lo.contains item.filetype = true → item.filetype ≠ "DIS" →
    (L k).fails = some msg → (∀ j, ¬ j = k → (L j).fails = none) →
    ∃ tr2, dispatch false L lo st tr l = (.error (.loaderErr msg), tr2) := by
  intro l
  induction l with
  | nil =>
    intro st tr k item msg _ hmem
    cases hmem
  | cons kv rest ih =>
    intro st tr k item msg hnd hmem hpk hlo hft hf hall
    rcases List.mem_cons.mp hmem with heq | hmem2
    · refine ⟨tr ++ [mkEv k item st.ml], ?_⟩
      rw [dispatch_cons, ← heq]
      dsimp only
      rw [dispatchStep_eval_fail_strict L lo st k item msg hpk hlo hft hf]
    · have hne : ¬ kv.1 = k := by
        rw [List.map_cons, List.nodup_cons] at hnd
        intro h0
        apply hnd.1
        rw [h0]
        exact List.mem_map.mpr ⟨(k, item), hmem2, rfl⟩
      cases hs : dispatchStep false L lo st kv.1 kv.2 with
      | halt e ev =>
        obtain ⟨m, hm⟩ := dispatchStep_halt_fails hs
        rw [hall kv.1 hne] at hm
        cases hm
      | next st1 evs =>
        have hnd2 : (rest.map Prod.fst).Nodup := by
          rw [List.map_cons, List.nodup_cons] at hnd
          exact hnd.2
        rw [dispatch_cons, hs]
        exact ih hnd2 hmem2 hpk hlo hft hf hall

/-- An unclaimed data entry yields exactly one external binding carrying
its unit, path and binary flag. -/
theorem dispatch_data_once {fg : Bool} {L : Loader} {lo : List String} :
    ∀ {l : UnitDict} {st : DispatchSt} {tr : List Ev} {st2 : DispatchSt}
      {tr2 : List Ev} {k : Nat} {item : NamEntry},
    (l.map Prod.fst).Nodup → (k, item) ∈ l →
    item.hasPackage = false →
    containsSub (toLowerS item.filetype) "data" = true →
    (∀ j, ((L j).claims).contains k = false) →
    st.ml.pop_key_list.contains k = false →
    st.ml.externals.countP (fun b => b.unit == k) = 0 →
    dispatch fg L lo st tr l = (.ok st2, tr2) →
    st2.ml.externals.countP (fun b => b.unit == k) = 1 ∧
    ({ unit := k, fname := item.filename, binflag := containsSub (toLowerS item.filetype) "binary", output := false } : ExtBinding) ∈ st2.ml.externals := by
  intro l
  induction l with
  | nil =>
    intro st tr st2 tr2 k item _ hmem
    cases hmem
  | cons kv rest ih =>
    intro st tr st2 tr2 k item hnd hmem hpk hdata hcl hpop hcount h
    rw [dispatch_cons] at h
    rcases List.mem_cons.mp hmem with heq | hmem2
    · rw [← heq] at h
      dsimp only at h
      rw [dispatchStep_eval_data fg L lo st k item hpk hdata hpop hcount] at h
      have hkv1 : kv.1 = k := by rw [← heq]
      have hknotin : k ∉ rest.map Prod.fst := by
        rw [List.map_cons, List.nodup_cons] at hnd
        intro hin
        apply hnd.1
        rw [hkv1]
        exact hin
      obtain ⟨hc, _⟩ := dispatch_keep hknotin hcl h
      constructor
      · rw [hc]
        show (st.ml.externals ++ [_]).countP _ = 1
        rw [List.countP_append, hcount]
        simp [List.countP_cons]
      · obtain ⟨_, _, _, hext, _⟩ := dispatch_ok_frame h
        apply hext
        show _ ∈ st.ml.externals ++ [_]
        exact List.mem_append_right _ (List.mem_singleton_self _)
    · have hne : ¬ k = kv.1 := by
        rw [List.map_cons, List.nodup_cons] at hnd
        intro h0
        apply hnd.1
        rw [← h0]
        exact List.mem_map.mpr ⟨(k, item), hmem2, rfl⟩
      cases hs : dispatchStep fg L lo st kv.1 kv.2 with
      | halt e ev => rw [hs] at h; cases h
      | next st1 evs =>
        rw [hs] at h
        obtain ⟨_, _, _, _, hpopf, _, hcnt⟩ := dispatchStep_next_frame hs
        have hnd2 : (rest.map Prod.fst).Nodup := by
          rw [List.map_cons, List.nodup_cons] at hnd
          exact hnd.2
        have hpop1 : st1.ml.pop_key_list.contains k = false := by
          cases hc : st1.ml.pop_key_list.contains k with
          | false => rfl
          | true =>
            rcases hpopf k hc with h2 | h2
            · rw [hpop] at h2; cases h2
            · rw [hcl kv.1] at h2; cases h2
        have hcount1 : st1.ml.externals.countP (fun b => b.unit == k) = 0 := by
          rw [hcnt k hne, hcount]
        exact ih hnd2 hmem2 hpk hdata hcl hpop1 hcount1 h

/-- An unclaimed entry without the data keyword is recorded as not loaded
and yields no binding. -/
theorem dispatch_nodata {fg : Bool} {L : Loader} {lo : List String} :
    ∀ {l : UnitDict} {st : DispatchSt} {tr : List Ev} {st2 : DispatchSt}
      {tr2 : List Ev} {k : Nat} {item : NamEntry},
    (l.map Prod.fst).Nodup → (k, item) ∈ l →
    item.hasPackage = false →
    containsSub (toLowerS item.filetype) "data" = false →
    (∀ j, ((L j).claims).contains k = false) →
    st.ml.externals.countP (fun b => b.unit == k) = 0 →
    dispatch fg L lo st tr l = (.ok st2, tr2) →
    item.filename ∈ st2.notLoaded ∧
    st2.ml.externals.countP (fun b => b.unit == k) = 0 := by
  intro l
  induction l with
  | nil =>
    intro st tr st2 tr2 k item _ hmem
    cases hmem
  | cons kv rest ih =>
    intro st tr st2 tr2 k item hnd hmem hpk hdata hcl hcount h
    rw [dispatch_cons] at h
    rcases List.mem_cons.mp hmem with heq | hmem2
    · rw [← heq] at h
      dsimp only at h
      rw [dispatchStep_eval_nodata fg L lo st k item hpk hdata] at h
      have hkv1 : kv.1 = k := by rw [← heq]
      have hknotin : k ∉ rest.map Prod.fst := by
        rw [List.map_cons, List.nodup_cons] at hnd
        intro hin
        apply hnd.1
        rw [hkv1]
        exact hin
      obtain ⟨hc, _⟩ := dispatch_keep hknotin hcl h
      obtain ⟨_, hn, _, _, _⟩ := dispatch_ok_frame h
      refine ⟨hn item.filename ?_, by rw [hc, hcount]⟩
      exact List.mem_append_right _ (List.mem_singleton_self _)
    · have hne : ¬ k = kv.1 := by
        rw [List.map_cons, List.nodup_cons] at hnd
        intro h0
        apply hnd.1
        rw [← h0]
        exact List.mem_map.mpr ⟨(k, item), hmem2, rfl⟩
      cases hs : dispatchStep fg L lo st kv.1 kv.2 with
      | halt e ev => rw [hs] at h; cases h
      | next st1 evs =>
        rw [hs] at h
        obtain ⟨_, _, _, _, _, _, hcnt⟩ := dispatchStep_next_frame hs
        have hnd2 : (rest.map Prod.fst).Nodup := by
          rw [List.map_cons, List.nodup_cons] at hnd
          exact hnd.2
        have hcount1 : st1.ml.externals.countP (fun b => b.unit == k) = 0 := by
          rw [hcnt k hne, hcount]
        exact ih hnd2 hmem2 hpk hdata hcl hcount1 h

/-- An allow-list tag other than DIS/BAS6 that matches no dictionary entry
lands in the not-found list. -/
theorem notFoundTags_mem (l : List String) (dict : UnitDict) (t : String)
    (ht : t ∈ l) (h1 : toUpperS t ≠ "DIS") (h2 : toUpperS t ≠ "BAS6")
    (habs : ∀ kv ∈ dict, kv.2.filetype ≠ toUpperS t) :
    toUpperS t ∈ notFoundTags l dict := by
  unfold notFoundTags
  apply List.mem_filterMap.mpr
  refine ⟨t, ht, ?_⟩
  dsimp only
  have hany : (dict.any (fun kv => kv.2.filetype == toUpperS t)) = false :=
    List.any_eq_false.mpr (fun kv hkv => by simp [habs kv hkv])
  rw [if_pos (show (toUpperS t != "DIS" && toUpperS t != "BAS6") = true by
      rw [Bool.and_eq_true]
      exact ⟨by simp [bne_iff_ne, h1], by simp [bne_iff_ne, h2]⟩),
    if_neg (show ¬ (dict.any (fun kv => kv.2.filetype == toUpperS t)) = true by
      rw [hany]; exact Bool.false_ne_true)]

/-- C1 (amended): when the allow-list names a tag (other than DIS and
BAS6) matching no manifest entry, the load raises the unsatisfied-request
error naming that tag — but only after the structural loads: the error is
raised after the discretization (and BAS6) loaders already ran, and every
loader invocation up to the raise is the discretization or the BAS6
loader. -/
theorem c1_load_only (dict : UnitDict) (L : Loader) (l : List String)
    (fg : Bool) (v0 : String) (t : String) (dk : Nat) (de : NamEntry)
    (hdis : findDis dict = some (dk, de))
    (hdok : (L dk).fails = none)
    (hbas : ∀ bk be, findFiletype "BAS6" dict = some (bk, be) →
      (L bk).fails = none)
    (ht : t ∈ l) (ht1 : toUpperS t ≠ "DIS") (ht2 : toUpperS t ≠ "BAS6")
    (habs : ∀ kv ∈ dict, kv.2.filetype ≠ toUpperS t) :
    (∃ nf, (load dict L (some l) fg v0).1 = .error (.loadOnlyNotFound nf) ∧
      toUpperS t ∈ nf) ∧
    (∀ ev ∈ (load dict L (some l) fg v0).2,
      ev.unit = dk ∨ ev.filetype = "BAS6") := by
  cases hb : findFiletype "BAS6" dict with
  | none =>
    rw [load_after_dis_nobas (some l) fg v0 hdis hdok hb]
    unfold loadRest
    dsimp only
    have hmem := notFoundTags_mem l (eraseKey dict dk) t ht ht1 ht2
      (fun kv hkv => habs kv (eraseKey_subset dict dk kv hkv))
    have hne : (notFoundTags l (eraseKey dict dk)).isEmpty = false := by
      cases hnf : notFoundTags l (eraseKey dict dk)
      · rw [hnf] at hmem; cases hmem
      · rfl
    rw [if_neg (show ¬ (notFoundTags l (eraseKey dict dk)).isEmpty = true by
      rw [hne]; exact Bool.false_ne_true)]
    refine ⟨⟨_, rfl, hmem⟩, ?_⟩
    intro ev hev
    rw [List.mem_singleton] at hev
    left; rw [hev]; rfl
  | some kvb =>
    rcases kvb with ⟨bk, be⟩
    have hbok := hbas bk be hb
    rw [load_after_dis_bas (some l) fg v0 hdis hdok hb hbok]
    unfold loadRest
    dsimp only
    have hsub : ∀ kv ∈ eraseKey (eraseKey dict dk) bk, kv ∈ dict :=
      fun kv hkv =>
        eraseKey_subset dict dk kv (eraseKey_subset (eraseKey dict dk) bk kv hkv)
    have hmem := notFoundTags_mem l (eraseKey (eraseKey dict dk) bk) t ht ht1 ht2
      (fun kv hkv => habs kv (hsub kv hkv))
    have hne : (notFoundTags l (eraseKey (eraseKey dict dk) bk)).isEmpty = false := by
      cases hnf : notFoundTags l (eraseKey (eraseKey dict dk) bk)
      · rw [hnf] at hmem; cases hmem
      · rfl
    rw [if_neg (show ¬ (notFoundTags l (eraseKey (eraseKey dict dk) bk)).isEmpty = true by
      rw [hne]; exact Bool.false_ne_true)]
    refine ⟨⟨_, rfl, hmem⟩, ?_⟩
    intro ev hev
    rcases List.mem_cons.mp hev with hev1 | hev2
    · left; rw [hev1]; rfl
    · rw [List.mem_singleton] at hev2
      right; rw [hev2]
      exact (findFiletype_some hb).2

/-- C1 counterexample: with the manifest `[DIS 10 a.dis]` and the
allow-list `["LPF"]`, the unsatisfied-request error is raised, but the
loader call count at that moment is 1, not 0 — the discretization loader
already ran. -/
theorem c1_counterexample :
    (load [(10, entDis)] okLoader (some ["LPF"]) true "mf2005").1 =
      .error (.loadOnlyNotFound ["LPF"]) ∧
    (load [(10, entDis)] okLoader (some ["LPF"]) true "mf2005").2.length = 1 := by
  exact ⟨by decide, by decide⟩

/-- Witness for C1 (amended) at the counterexample manifest. -/
theorem c1_load_only_witness :
    (∃ nf, (load [(10, entDis)] okLoader (some ["LPF"]) true "mf2005").1 =
      .error (.loadOnlyNotFound nf) ∧ toUpperS "LPF" ∈ nf) ∧
    (∀ ev ∈ (load [(10, entDis)] okLoader (some ["LPF"]) true "mf2005").2,
      ev.unit = 10 ∨ ev.filetype = "BAS6") :=
  c1_load_only [(10, entDis)] okLoader ["LPF"] true "mf2005" "LPF" 10 entDis
    (by decide) (by decide)
    (by intro bk be hcon
        rw [show findFiletype "BAS6" [(10, entDis)] = none from rfl] at hcon
        cases hcon)
    (by decide) (by decide) (by decide) (by decide)

/-- C4 (amended): a discretization loader failure aborts the whole load in
both modes — in forgiving mode with the wrapped error naming the file, in
strict mode by propagating the raw loader error; a BAS6 loader failure
aborts in both modes with the wrapped error naming the file; and with the
default allow-list these are the only loaders whose failure aborts in
forgiving mode: when they succeed, the load returns a model whatever the
other loaders do. -/
theorem c4_structural (dict : UnitDict) (L : Loader)
    (lo : Option (List String)) (v0 : String) :
    (∀ dk de msg, findDis dict = some (dk, de) → (L dk).fails = some msg →
      (load dict L lo true v0).1 =
        .error (.disLoadFailed (basename de.filename) msg) ∧
      (load dict L lo false v0).1 = .error (.loaderErr msg)) ∧
    (∀ dk de bk be msg fg, findDis dict = some (dk, de) →
      (L dk).fails = none → findFiletype "BAS6" dict = some (bk, be) →
      (L bk).fails = some msg →
      (load dict L lo fg v0).1 =
        .error (.basLoadFailed (basename be.filename) msg)) ∧
    (∀ dk de, findDis dict = some (dk, de) → (L dk).fails = none →
      (∀ bk be, findFiletype "BAS6" dict = some (bk, be) →
        (L bk).fails = none) →
      ∃ res tr, load dict L none true v0 = (.ok res, tr)) := by
  refine ⟨?_, ?_, ?_⟩
  · intro dk de msg hdis hf
    obtain ⟨h1, h2⟩ := load_dis_fail lo v0 hdis hf
    exact ⟨by rw [h1], by rw [h2]⟩
  · intro dk de bk be msg fg hdis hok hbas hbf
    rw [load_bas_fail lo fg v0 hdis hok hbas hbf]
  · intro dk de hdis hok hbas
    cases hb : findFiletype "BAS6" dict with
    | none =>
      rw [load_after_dis_nobas none true v0 hdis hok hb]
      unfold loadRest
      dsimp only
      rw [if_pos (show ([] : List String).isEmpty = true from rfl)]
      obtain ⟨st2, tr2, hd⟩ := dispatch_forgive_ok L
        ((eraseKey dict dk).map fun kv => kv.2.filetype) (eraseKey dict dk)
        { ml := attachPackage (mlPre dict v0) de (L dk)
          succeeded := [de.filename], notLoaded := [] }
        [mkEv dk de (mlPre dict v0)]
      rw [hd]
      exact ⟨_, _, rfl⟩
    | some kvb =>
      rcases kvb with ⟨bk, be⟩
      have hbok := hbas bk be hb
      rw [load_after_dis_bas none true v0 hdis hok hb hbok]
      unfold loadRest
      dsimp only
      rw [if_pos (show ([] : List String).isEmpty = true from rfl)]
      obtain ⟨st2, tr2, hd⟩ := dispatch_forgive_ok L
        ((eraseKey (eraseKey dict dk) bk).map fun kv => kv.2.filetype)
        (eraseKey (eraseKey dict dk) bk)
        { ml := attachPackage (attachPackage (mlPre dict v0) de (L dk)) be (L bk)
          succeeded := [de.filename, be.filename], notLoaded := [] }
        [mkEv dk de (mlPre dict v0),
          mkEv bk be (attachPackage (mlPre dict v0) de (L dk))]
      rw [hd]
      exact ⟨_, _, rfl⟩

/-- C4 counterexample: in strict mode a discretization loader failure
propagates the raw loader error, which need not name the offending file —
here the error message is `boom` and does not mention `a.dis`. -/
theorem c4_counterexample :
    (load [(10, entDis)] boomLoader none false "mf2005").1 =
      .error (.loaderErr "boom") ∧
    errNames (.loaderErr "boom") (basename "a.dis") = false := by
  exact ⟨by decide, by decide⟩

/-- Witness for C4 at the scenario A manifest: a failing DIS loader
(both modes), a failing BAS6 loader, and an all-success loader. -/
theorem c4_structural_witness :
    ((load dictA boomLoader none true "mf2005").1 =
      .error (.disLoadFailed "a.dis" "boom")) ∧
    ((load dictA boomLoader none false "mf2005").1 =
      .error (.loaderErr "boom")) ∧
    ((load dictA loaderBasFail none true "mf2005").1 =
      .error (.basLoadFailed "a.bas" "bas boom")) ∧
    (∃ res tr, load dictA okLoader none true "mf2005" = (.ok res, tr)) := by
  refine ⟨?_, ?_, ?_, ?_⟩
  · exact ((c4_structural dictA boomLoader none "mf2005").1 10 entDis "boom"
      (by decide) (by decide)).1
  · exact ((c4_structural dictA boomLoader none "mf2005").1 10 entDis "boom"
      (by decide) (by decide)).2
  · exact (c4_structural dictA loaderBasFail none "mf2005").2.1 10 entDis 11
      entBas "bas boom" true (by decide) (by decide) (by decide) (by decide)
  · exact (c4_structural dictA okLoader none "mf2005").2.2 10 entDis
      (by decide) (by decide) (fun bk be _ => rfl)

/-- A successful tail phase comes from a cleanup over a dispatch result. -/
theorem loadRest_ok_cleanup {ml : MlState} {succ : List String}
    {dict : UnitDict} {tr0 : List Ev} {L : Loader} {lo : Option (List String)}
    {fg : Bool} {res : LoadResult} {tr : List Ev}
    (h : loadRest ml succ dict tr0 L lo fg = (.ok res, tr)) :
    ∃ (mlst : MlState) (dict2 : UnitDict),
      res.ml = (cleanupFold mlst.pop_key_list (mlst, dict2)).1 ∧
      res.remaining = (cleanupFold mlst.pop_key_list (mlst, dict2)).2 := by
  cases lo with
  | none =>
    unfold loadRest at h
    dsimp only at h
    rw [if_pos (show ([] : List String).isEmpty = true from rfl)] at h
    rcases hd : dispatch fg L (dict.map fun kv => kv.2.filetype)
        { ml := ml, succeeded := succ, notLoaded := [] } tr0 dict with ⟨dres, tr2⟩
    rw [hd] at h
    cases dres with
    | error e => simp [finishDispatch] at h
    | ok st =>
      unfold finishDispatch at h
      dsimp only at h
      cases h
      exact ⟨st.ml, dict, rfl, rfl⟩
  | some l =>
    unfold loadRest at h
    dsimp only at h
    by_cases hemp : (notFoundTags l dict).isEmpty = true
    · rw [if_pos hemp] at h
      rcases hd : dispatch fg L (normLoadOnly l)
          { ml := ml, succeeded := succ, notLoaded := [] } tr0 dict with ⟨dres, tr2⟩
      rw [hd] at h
      cases dres with
      | error e => simp [finishDispatch] at h
      | ok st =>
        unfold finishDispatch at h
        dsimp only at h
        cases h
        exact ⟨st.ml, dict, rfl, rfl⟩
    · rw [if_neg hemp] at h
      simp at h

/-- A successful load comes from a cleanup over a dispatch result. -/
theorem load_ok_cleanup {dict : UnitDict} {L : Loader}
    {lo : Option (List String)} {fg : Bool} {v0 : String} {res : LoadResult}
    {tr : List Ev} (h : load dict L lo fg v0 = (.ok res, tr)) :
    ∃ (mlst : MlState) (dict2 : UnitDict),
      res.ml = (cleanupFold mlst.pop_key_list (mlst, dict2)).1 ∧
      res.remaining = (cleanupFold mlst.pop_key_list (mlst, dict2)).2 := by
  unfold load at h
  dsimp only at h
  cases hdis : findDis dict with
  | none => rw [hdis] at h; simp at h
  | some kvd =>
    rcases kvd with ⟨dk, de⟩
    rw [hdis] at h
    dsimp only at h
    cases hdf : (L dk).fails with
    | some msg =>
      rw [hdf] at h
      dsimp only at h
      cases fg <;> simp at h
    | none =>
      rw [hdf] at h
      dsimp only at h
      cases hbb : findFiletype "BAS6" dict with
      | some kvb =>
        rcases kvb with ⟨bk, be⟩
        rw [hbb] at h
        dsimp only at h
        cases hbf : (L bk).fails with
        | some msg => rw [hbf] at h; simp at h
        | none =>
          rw [hbf] at h
          dsimp only at h
          exact loadRest_ok_cleanup h
      | none =>
        rw [hbb] at h
        dsimp only at h
        exact loadRest_ok_cleanup h

/-- C7: the cleanup pass removes every handle of the claimed-after-the-fact
set both from the external bindings and from the remaining manifest, and
removing a handle that has no binding is a no-op on the model, never an
error (the pass is a total function). -/
theorem c7_cleanup (dict : UnitDict) (L : Loader) (lo : Option (List String))
    (fg : Bool) (v0 : String) (res : LoadResult) (tr : List Ev)
    (h : load dict L lo fg v0 = (.ok res, tr)) :
    (∀ k ∈ res.ml.pop_key_list,
      (∀ b ∈ res.ml.externals, b.unit ≠ k) ∧
      (∀ kv ∈ res.remaining, kv.1 ≠ k)) ∧
    (∀ (ml2 : MlState) (k : Nat), (∀ b ∈ ml2.externals, b.unit ≠ k) →
      remove_external ml2 k = ml2) := by
  obtain ⟨mlst, dict2, h1, h2⟩ := load_ok_cleanup h
  constructor
  · intro k hk
    have hpop : res.ml.pop_key_list = mlst.pop_key_list := by
      rw [h1]; exact (cleanupFold_frame _ _ _).2.2.1
    rw [hpop] at hk
    obtain ⟨hb, hd⟩ := cleanupFold_removed mlst.pop_key_list mlst dict2 k hk
    constructor
    · intro b hbmem
      exact hb b (by rw [h1] at hbmem; exact hbmem)
    · intro kv hkv
      exact hd kv (by rw [h2] at hkv; exact hkv)
  · intro ml2 k hab
    exact remove_external_absent ml2 k hab

/-- Witness for C7: the DIS loader claims unit 50 post hoc, so the data
entry at unit 50 ends with no binding and is removed from the remaining
manifest set. -/
theorem c7_cleanup_witness :
    (∀ k ∈ resC7.ml.pop_key_list,
      (∀ b ∈ resC7.ml.externals, b.unit ≠ k) ∧
      (∀ kv ∈ resC7.remaining, kv.1 ≠ k)) ∧
    (∀ (ml2 : MlState) (k : Nat), (∀ b ∈ ml2.externals, b.unit ≠ k) →
      remove_external ml2 k = ml2) :=
  c7_cleanup dict7 loaderClaim50 none true "mf2005" resC7 trC7 (by decide)

/-- Concatenation preserves not-containing. -/
theorem contains_append_false {l1 l2 : List Nat} {k : Nat}
    (h1 : l1.contains k = false) (h2 : l2.contains k = false) :
    (l1 ++ l2).contains k = false := by
  apply (contains_false_iff _ _).mpr
  intro hmem
  rcases List.mem_append.mp hmem with hm | hm
  · exact (contains_false_iff _ _).mp h1 hm
  · exact (contains_false_iff _ _).mp h2 hm

/-- A binding whose unit is outside the pop list survives the cleanup
pass. -/
theorem cleanupFold_mem_keep : ∀ (ks : List Nat) (ml : MlState)
    (d : UnitDict) (k : Nat) (b : ExtBinding), ks.contains k = false →
    b.unit = k → b ∈ ml.externals →
    b ∈ (cleanupFold ks (ml, d)).1.externals := by
  intro ks
  induction ks with
  | nil => intro ml d k b _ _ hb; exact hb
  | cons k0 ks ih =>
    intro ml d k b hk hbu hb
    have hnk : k ∉ k0 :: ks := (contains_false_iff _ _).mp hk
    have hne : ¬ k = k0 := fun h0 => hnk (by rw [h0]; exact List.mem_cons_self _ _)
    have hk2 : ks.contains k = false :=
      (contains_false_iff _ _).mpr (fun h2 => hnk (List.mem_cons_of_mem _ h2))
    apply ih (remove_external ml k0) (eraseKey d k0) k b hk2 hbu
    unfold remove_external
    apply List.mem_filter.mpr
    refine ⟨hb, ?_⟩
    rw [hbu]
    simp [bne_iff_ne]
    intro h0
    exact hne h0

/-- C2: in forgiving mode (the default allow-list), a failing
non-structural loader is caught: its file is recorded in the not-loaded
list, the model load-failed flag is set, loading continues, and the
returned model still carries the discretization package and every package
whose loader succeeded; in strict mode the same failure propagates as the
raw loader error. -/
theorem c2_forgiving_strict (dict : UnitDict) (L : Loader) (v0 : String)
    (dk : Nat) (de : NamEntry) (k : Nat) (item : NamEntry) (msg : String)
    (hnd : (dict.map Prod.fst).Nodup)
    (hdis : findDis dict = some (dk, de))
    (hdok : (L dk).fails = none)
    (hbas : ∀ bk be, findFiletype "BAS6" dict = some (bk, be) →
      (L bk).fails = none)
    (hmem : (k, item) ∈ dict) (hpk : item.hasPackage = true)
    (hft1 : item.filetype ≠ "DIS") (hft2 : item.filetype ≠ "DISU")
    (hft3 : item.filetype ≠ "BAS6")
    (hf : (L k).fails = some msg) :
    (∃ res tr, load dict L none true v0 = (.ok res, tr) ∧
      item.filename ∈ res.notLoaded ∧ res.ml.load_fail = true ∧
      de.filetype ∈ res.ml.packages ∧
      (∀ (k2 : Nat) (it2 : NamEntry), (k2, it2) ∈ dict →
        it2.hasPackage = true → it2.filetype ≠ "DIS" →
        it2.filetype ≠ "DISU" → it2.filetype ≠ "BAS6" →
        (L k2).fails = none → it2.filetype ∈ res.ml.packages)) ∧
    ((∀ j, ¬ j = k → (L j).fails = none) →
      (load dict L none false v0).1 = .error (.loaderErr msg)) := by
  obtain ⟨hdmem, hdft⟩ := findDis_some hdis
  have hkdk : k ≠ dk := by
    intro h0
    have hdmem2 : (k, de) ∈ dict := by rw [h0]; exact hdmem
    have hit : item = de := nodup_key_eq hnd hmem hdmem2
    rcases hdft with hh | hh
    · exact hft1 (by rw [hit, hh])
    · exact hft2 (by rw [hit, hh])
  have hne_of : ∀ (k2 : Nat) (it2 : NamEntry), (k2, it2) ∈ dict →
      it2.filetype ≠ "DIS" → it2.filetype ≠ "DISU" → k2 ≠ dk := by
    intro k2 it2 hm2 hn1 hn2 h0
    have hdmem2 : (k2, de) ∈ dict := by rw [h0]; exact hdmem
    have hit : it2 = de := nodup_key_eq hnd hm2 hdmem2
    rcases hdft with hh | hh
    · exact hn1 (by rw [hit, hh])
    · exact hn2 (by rw [hit, hh])
  cases hb : findFiletype "BAS6" dict with
  | none =>
    have hmem1 : (k, item) ∈ eraseKey dict dk := mem_eraseKey_of_ne hmem hkdk
    have hnd1 : ((eraseKey dict dk).map Prod.fst).Nodup :=
      eraseKey_keys_nodup dict dk hnd
    have hlo : ((eraseKey dict dk).map fun kv => kv.2.filetype).contains
        item.filetype = true :=
      List.elem_iff.mpr (List.mem_map.mpr ⟨(k, item), hmem1, rfl⟩)
    constructor
    · rw [load_after_dis_nobas none true v0 hdis hdok hb]
      unfold loadRest
      dsimp only
      rw [if_pos (show ([] : List String).isEmpty = true from rfl)]
      obtain ⟨st2, tr2, hd⟩ := dispatch_forgive_ok L
        ((eraseKey dict dk).map fun kv => kv.2.filetype) (eraseKey dict dk)
        { ml := attachPackage (mlPre dict v0) de (L dk)
          succeeded := [de.filename], notLoaded := [] }
        [mkEv dk de (mlPre dict v0)]
      rw [hd]
      obtain ⟨hrec1, hrec2⟩ := dispatch_fail_recorded hmem1 hpk hlo hft1 hf hd
      obtain ⟨hfrm, _, _, _, _⟩ := dispatch_ok_frame hd
      obtain ⟨hclp, hclf, _, _, _⟩ :=
        cleanupFold_frame st2.ml.pop_key_list st2.ml (eraseKey dict dk)
      refine ⟨_, _, rfl, hrec1, ?_, ?_, ?_⟩
      · show (cleanupPass st2.ml (eraseKey dict dk)).1.load_fail = true
        unfold cleanupPass
        rw [hclf]
        exact hrec2
      · show de.filetype ∈ (cleanupPass st2.ml (eraseKey dict dk)).1.packages
        unfold cleanupPass
        rw [hclp]
        apply hfrm
        exact List.mem_append_right _ (List.mem_singleton_self _)
      · intro k2 it2 hm2 hp2 hn1 hn2 hn3 hok2
        show it2.filetype ∈ (cleanupPass st2.ml (eraseKey dict dk)).1.packages
        unfold cleanupPass
        rw [hclp]
        have hm2e : (k2, it2) ∈ eraseKey dict dk :=
          mem_eraseKey_of_ne hm2 (hne_of k2 it2 hm2 hn1 hn2)
        have hlo2 : ((eraseKey dict dk).map fun kv => kv.2.filetype).contains
            it2.filetype = true :=
          List.elem_iff.mpr (List.mem_map.mpr ⟨(k2, it2), hm2e, rfl⟩)
        exact dispatch_success_attached hm2e hp2 hlo2 hn1 hok2 hd
    · intro hall
      rw [load_after_dis_nobas none false v0 hdis hdok hb]
      unfold loadRest
      dsimp only
      rw [if_pos (show ([] : List String).isEmpty = true from rfl)]
      obtain ⟨tr2, hd⟩ := dispatch_strict_halt hnd1 hmem1 hpk hlo hft1 hf hall
      rw [hd]
      rfl
  | some kvb =>
    rcases kvb with ⟨bk, be⟩
    have hbok := hbas bk be hb
    obtain ⟨hbmem, hbft⟩ := findFiletype_some hb
    have hkbk : k ≠ bk := by
      intro h0
      have hbmem2 : (k, be) ∈ dict := by rw [h0]; exact hbmem
      have hit : item = be := nodup_key_eq hnd hmem hbmem2
      exact hft3 (by rw [hit, hbft])
    have hbne_of : ∀ (k2 : Nat) (it2 : NamEntry), (k2, it2) ∈ dict →
        it2.filetype ≠ "BAS6" → k2 ≠ bk := by
      intro k2 it2 hm2 hn3 h0
      have hbmem2 : (k2, be) ∈ dict := by rw [h0]; exact hbmem
      have hit : it2 = be := nodup_key_eq hnd hm2 hbmem2
      exact hn3 (by rw [hit, hbft])
    have hmem1 : (k, item) ∈ eraseKey (eraseKey dict dk) bk :=
      mem_eraseKey_of_ne (mem_eraseKey_of_ne hmem hkdk) hkbk
    have hnd1 : ((eraseKey (eraseKey dict dk) bk).map Prod.fst).Nodup :=
      eraseKey_keys_nodup _ bk (eraseKey_keys_nodup dict dk hnd)
    have hlo : ((eraseKey (eraseKey dict dk) bk).map
        fun kv => kv.2.filetype).contains item.filetype = true :=
      List.elem_iff.mpr (List.mem_map.mpr ⟨(k, item), hmem1, rfl⟩)
    constructor
    · rw [load_after_dis_bas none true v0 hdis hdok hb hbok]
      unfold loadRest
      dsimp only
      rw [if_pos (show ([] : List String).isEmpty = true from rfl)]
      obtain ⟨st2, tr2, hd⟩ := dispatch_forgive_ok L
        ((eraseKey (eraseKey dict dk) bk).map fun kv => kv.2.filetype)
        (eraseKey (eraseKey dict dk) bk)
        { ml := attachPackage (attachPackage (mlPre dict v0) de (L dk)) be (L bk)
          succeeded := [de.filename, be.filename], notLoaded := [] }
        [mkEv dk de (mlPre dict v0),
          mkEv bk be (attachPackage (mlPre dict v0) de (L dk))]
      rw [hd]
      obtain ⟨hrec1, hrec2⟩ := dispatch_fail_recorded hmem1 hpk hlo hft1 hf hd
      obtain ⟨hfrm, _, _, _, _⟩ := dispatch_ok_frame hd
      obtain ⟨hclp, hclf, _, _, _⟩ :=
        cleanupFold_frame st2.ml.pop_key_list st2.ml
          (eraseKey (eraseKey dict dk) bk)
      refine ⟨_, _, rfl, hrec1, ?_, ?_, ?_⟩
      · show (cleanupPass st2.ml
          (eraseKey (eraseKey dict dk) bk)).1.load_fail = true
        unfold cleanupPass
        rw [hclf]
        exact hrec2
      · show de.filetype ∈
          (cleanupPass st2.ml (eraseKey (eraseKey dict dk) bk)).1.packages
        unfold cleanupPass
        rw [hclp]
        apply hfrm
        show de.filetype ∈
          ((mlPre dict v0).packages ++ [de.filetype]) ++ [be.filetype]
        apply List.mem_append_left
        exact List.mem_append_right _ (List.mem_singleton_self _)
      · intro k2 it2 hm2 hp2 hn1 hn2 hn3 hok2
        show it2.filetype ∈
          (cleanupPass st2.ml (eraseKey (eraseKey dict dk) bk)).1.packages
        unfold cleanupPass
        rw [hclp]
        have hm2e : (k2, it2) ∈ eraseKey (eraseKey dict dk) bk :=
          mem_eraseKey_of_ne
            (mem_eraseKey_of_ne hm2 (hne_of k2 it2 hm2 hn1 hn2))
            (hbne_of k2 it2 hm2 hn3)
        have hlo2 : ((eraseKey (eraseKey dict dk) bk).map
            fun kv => kv.2.filetype).contains it2.filetype = true :=
          List.elem_iff.mpr (List.mem_map.mpr ⟨(k2, it2), hm2e, rfl⟩)
        exact dispatch_success_attached hm2e hp2 hlo2 hn1 hok2 hd
    · intro hall
      rw [load_after_dis_bas none false v0 hdis hdok hb hbok]
      unfold loadRest
      dsimp only
      rw [if_pos (show ([] : List String).isEmpty = true from rfl)]
      obtain ⟨tr2, hd⟩ := dispatch_strict_halt hnd1 hmem1 hpk hlo hft1 hf hall
      rw [hd]
      rfl

/-- Witness for C2 at scenario A: manifest DIS/BAS6/WEL, the WEL loader
raises. -/
theorem c2_forgiving_strict_witness :
    (∃ res tr, load dictA loaderA none true "mf2005" = (.ok res, tr) ∧
      "a.wel" ∈ res.notLoaded ∧ res.ml.load_fail = true ∧
      "DIS" ∈ res.ml.packages ∧
      (∀ (k2 : Nat) (it2 : NamEntry), (k2, it2) ∈ dictA →
        it2.hasPackage = true → it2.filetype ≠ "DIS" →
        it2.filetype ≠ "DISU" → it2.filetype ≠ "BAS6" →
        (loaderA k2).fails = none → it2.filetype ∈ res.ml.packages)) ∧
    ((∀ j, ¬ j = 12 → (loaderA j).fails = none) →
      (load dictA loaderA none false "mf2005").1 =
        .error (.loaderErr "WEL boom")) :=
  c2_forgiving_strict dictA loaderA "mf2005" 10 entDis 12 entWel "WEL boom"
    (by decide) (by decide) (by decide)
    (by intro bk be hcon
        rw [show findFiletype "BAS6" dictA = some (11, entBas) from rfl] at hcon
        cases hcon
        rfl)
    (by decide) (by decide) (by decide) (by decide) (by decide) (by decide)

/-- The tail phase for an unclaimed entry, with the default allow-list:
a data entry that no loader claims gets exactly one binding surviving the
cleanup; a non-data entry is recorded as not loaded with no binding; and
its unit never appears in the invocation trace. -/
theorem c6_tail {L : Loader} {fg : Bool} {ml0 : MlState}
    {succ0 : List String} {dict2 : UnitDict} {tr0 : List Ev}
    {res : LoadResult} {tr : List Ev} {k : Nat} {item : NamEntry}
    (hnd2 : (dict2.map Prod.fst).Nodup)
    (hmem2 : (k, item) ∈ dict2)
    (hpk : item.hasPackage = false)
    (hcl : ∀ j, ((L j).claims).contains k = false)
    (hpop0 : ml0.pop_key_list.contains k = false)
    (hcnt0 : ml0.externals.countP (fun b => b.unit == k) = 0)
    (htr0 : ∀ ev ∈ tr0, ev.unit ≠ k)
    (h : loadRest ml0 succ0 dict2 tr0 L none fg = (.ok res, tr)) :
    (containsSub (toLowerS item.filetype) "data" = true →
      res.ml.externals.countP (fun b => b.unit == k) = 1 ∧
      ({ unit := k, fname := item.filename, binflag := containsSub (toLowerS item.filetype) "binary", output := false } : ExtBinding) ∈ res.ml.externals) ∧
    (containsSub (toLowerS item.filetype) "data" = false →
      item.filename ∈ res.notLoaded ∧
      res.ml.externals.countP (fun b => b.unit == k) = 0) ∧
    (∀ ev ∈ tr, ev.unit ≠ k) := by
  unfold loadRest at h
  dsimp only at h
  rw [if_pos (show ([] : List String).isEmpty = true from rfl)] at h
  rcases hd : dispatch fg L (dict2.map fun kv => kv.2.filetype)
      { ml := ml0, succeeded := succ0, notLoaded := [] } tr0 dict2 with ⟨dres, tr2⟩
  rw [hd] at h
  cases dres with
  | error e => simp [finishDispatch] at h
  | ok st =>
    unfold finishDispatch at h
    dsimp only at h
    cases h
    have hpopF : st.ml.pop_key_list.contains k = false :=
      (dispatch_ok_frame hd).2.2.2.2 k hcl hpop0
    refine ⟨?_, ?_, ?_⟩
    · intro hdata
      obtain ⟨hc1, hb1⟩ :=
        dispatch_data_once hnd2 hmem2 hpk hdata hcl hpop0 hcnt0 hd
      constructor
      · show (cleanupPass st.ml dict2).1.externals.countP _ = 1
        unfold cleanupPass
        rw [cleanupFold_keep st.ml.pop_key_list st.ml dict2 k hpopF]
        exact hc1
      · show _ ∈ (cleanupPass st.ml dict2).1.externals
        unfold cleanupPass
        exact cleanupFold_mem_keep st.ml.pop_key_list st.ml dict2 k _ hpopF rfl hb1
    · intro hdata
      obtain ⟨hn1, hc1⟩ := dispatch_nodata hnd2 hmem2 hpk hdata hcl hcnt0 hd
      refine ⟨hn1, ?_⟩
      show (cleanupPass st.ml dict2).1.externals.countP _ = 0
      unfold cleanupPass
      rw [cleanupFold_keep st.ml.pop_key_list st.ml dict2 k hpopF]
      exact hc1
    · intro ev hev
      have hev2 : ev ∈ (dispatch fg L (dict2.map fun kv => kv.2.filetype)
          { ml := ml0, succeeded := succ0, notLoaded := [] } tr0 dict2).2 := by
        rw [hd]
        exact hev
      rcases dispatch_trace_units ev hev2 with hin | ⟨kv, hkv, hu, hp⟩
      · exact htr0 ev hin
      · rcases kv with ⟨k2, it2⟩
        intro h0
        have hk2 : k2 = k := by simpa using hu.symm.trans h0
        have hit : it2 = item :=
          nodup_key_eq hnd2 (by rw [hk2] at hkv; exact hkv) hmem2
        rw [hit, hpk] at hp
        cases hp

/-- C6: after a completed load with the default allow-list, every
unclaimed manifest entry whose tag contains the data keyword yields
exactly one external binding carrying its handle, path and a binary flag
set iff the tag signals binary; an unclaimed entry without the data
keyword is recorded as not loaded, yields no binding, and its loader is
never invoked. -/
theorem c6_external_bindings (dict : UnitDict) (L : Loader) (fg : Bool)
    (v0 : String) (res : LoadResult) (tr : List Ev) (k : Nat)
    (item : NamEntry)
    (hnd : (dict.map Prod.fst).Nodup)
    (hmem : (k, item) ∈ dict)
    (hpk : item.hasPackage = false)
    (hft1 : item.filetype ≠ "DIS") (hft2 : item.filetype ≠ "DISU")
    (hft3 : item.filetype ≠ "BAS6")
    (hcl : ∀ j, ((L j).claims).contains k = false)
    (h : load dict L none fg v0 = (.ok res, tr)) :
    (containsSub (toLowerS item.filetype) "data" = true →
      res.ml.externals.countP (fun b => b.unit == k) = 1 ∧
      ({ unit := k, fname := item.filename, binflag := containsSub (toLowerS item.filetype) "binary", output := false } : ExtBinding) ∈ res.ml.externals) ∧
    (containsSub (toLowerS item.filetype) "data" = false →
      item.filename ∈ res.notLoaded ∧
      res.ml.externals.countP (fun b => b.unit == k) = 0) ∧
    (∀ ev ∈ tr, ev.unit ≠ k) := by
  unfold load at h
  dsimp only at h
  cases hdis : findDis dict with
  | none => rw [hdis] at h; simp at h
  | some kvd =>
    rcases kvd with ⟨dk, de⟩
    rw [hdis] at h
    dsimp only at h
    obtain ⟨hdmem, hdft⟩ := findDis_some hdis
    have hkdk : k ≠ dk := by
      intro h0
      have hdmem2 : (k, de) ∈ dict := by rw [h0]; exact hdmem
      have hit : item = de := nodup_key_eq hnd hmem hdmem2
      rcases hdft with hh | hh
      · exact hft1 (by rw [hit, hh])
      · exact hft2 (by rw [hit, hh])
    cases hdf : (L dk).fails with
    | some msg =>
      rw [hdf] at h
      dsimp only at h
      cases fg <;> simp at h
    | none =>
      rw [hdf] at h
      dsimp only at h
      cases hbb : findFiletype "BAS6" dict with
      | none =>
        rw [hbb] at h
        dsimp only at h
        have hpop0 : (attachPackage (mlPre dict v0) de (L dk)).pop_key_list.contains k = false := by
          show ((mlPre dict v0).pop_key_list ++ (L dk).claims).contains k = false
          refine contains_append_false ?_ (hcl dk)
          rw [(mlPre_fields dict v0).2.2.1]
          rfl
        have hcnt0 : (attachPackage (mlPre dict v0) de (L dk)).externals.countP (fun b => b.unit == k) = 0 := by
          show (mlPre dict v0).externals.countP (fun b => b.unit == k) = 0
          rw [(mlPre_fields dict v0).2.1]
          rfl
        have htr0 : ∀ ev ∈ [mkEv dk de (mlPre dict v0)], ev.unit ≠ k := by
          intro ev hev
          rw [List.mem_singleton] at hev
          rw [hev]
          exact fun h0 => hkdk h0.symm
        exact c6_tail (eraseKey_keys_nodup dict dk hnd)
          (mem_eraseKey_of_ne hmem hkdk) hpk hcl hpop0 hcnt0 htr0 h
      | some kvb =>
        rcases kvb with ⟨bk, be⟩
        rw [hbb] at h
        dsimp only at h
        obtain ⟨hbmem, hbft⟩ := findFiletype_some hbb
        have hkbk : k ≠ bk := by
          intro h0
          have hbmem2 : (k, be) ∈ dict := by rw [h0]; exact hbmem
          have hit : item = be := nodup_key_eq hnd hmem hbmem2
          exact hft3 (by rw [hit, hbft])
        cases hbf : (L bk).fails with
        | some msg => rw [hbf] at h; simp at h
        | none =>
          rw [hbf] at h
          dsimp only at h
          have hpop0 : (attachPackage (attachPackage (mlPre dict v0) de (L dk)) be (L bk)).pop_key_list.contains k = false := by
            show (((mlPre dict v0).pop_key_list ++ (L dk).claims) ++ (L bk).claims).contains k = false
            refine contains_append_false (contains_append_false ?_ (hcl dk)) (hcl bk)
            rw [(mlPre_fields dict v0).2.2.1]
            rfl
          have hcnt0 : (attachPackage (attachPackage (mlPre dict v0) de (L dk)) be (L bk)).externals.countP (fun b => b.unit == k) = 0 := by
            show (mlPre dict v0).externals.countP (fun b => b.unit == k) = 0
            rw [(mlPre_fields dict v0).2.1]
            rfl
          have htr0 : ∀ ev ∈ [mkEv dk de (mlPre dict v0),
              mkEv bk be (attachPackage (mlPre dict v0) de (L dk))],
              ev.unit ≠ k := by
            intro ev hev
            rcases List.mem_cons.mp hev with hev1 | hev2
            · rw [hev1]
              exact fun h0 => hkdk h0.symm
            · rw [List.mem_singleton] at hev2
              rw [hev2]
              exact fun h0 => hkbk h0.symm
          exact c6_tail
            (eraseKey_keys_nodup _ bk (eraseKey_keys_nodup dict dk hnd))
            (mem_eraseKey_of_ne (mem_eraseKey_of_ne hmem hkdk) hkbk)
            hpk hcl hpop0 hcnt0 htr0 h

/-- Witness for C6 at scenario B: the DATA(BINARY) entry at unit 50
becomes exactly one binding with the binary flag set. -/
theorem c6_external_bindings_witness :
    (containsSub (toLowerS entDataBin.filetype) "data" = true →
      resB.ml.externals.countP (fun b => b.unit == 50) = 1 ∧
      ({ unit := 50, fname := entDataBin.filename, binflag := containsSub (toLowerS entDataBin.filetype) "binary", output := false } : ExtBinding) ∈ resB.ml.externals) ∧
    (containsSub (toLowerS entDataBin.filetype) "data" = false →
      entDataBin.filename ∈ resB.notLoaded ∧
      resB.ml.externals.countP (fun b => b.unit == 50) = 0) ∧
    (∀ ev ∈ trB, ev.unit ≠ 50) :=
  c6_external_bindings dictB okLoader true "mf2005" resB trB 50 entDataBin
    (by decide) (by decide) (by decide) (by decide) (by decide) (by decide)
    (fun _ => rfl) (by decide)

end FlopyMf
